import Mathlib

/-!
Verification development for the Aegis-Scan scan-orchestration core
(`backend/app`).  The Python data model (`schemas.py`), the tool launcher
(`services/tool_launcher.py`), the orchestrator loop (`orchestrator.py`),
the gitleaks/semgrep parsers, the secret and meta agents, the database
store (`services/database_store.py`) and the in-memory scan registry are
shallowly embedded as executable Lean definitions; timestamps are modelled
by a natural-number clock, and external collaborators (the `json` library,
the LLM HTTP client, the filesystem, the git subprocess, the voice/websocket
sinks) are modelled as explicit parameters so that theorems quantify over
their behavior.
-/

set_option maxHeartbeats 1000000

namespace AegisScan

/-- `AgentName` enum from `schemas.py`. -/
inductive AgentName where
  | static
  | dependency
  | secret
  | fuzzer
  | dast
  | template
  | adaptive
  | threat
  | report
deriving DecidableEq, Repr

/-- The `.value` string of each `AgentName` member. -/
def AgentName.value : AgentName → String
  | .static => "static"
  | .dependency => "dependency"
  | .secret => "secret"
  | .fuzzer => "fuzzer"
  | .dast => "dast"
  | .template => "template"
  | .adaptive => "adaptive"
  | .threat => "threat"
  | .report => "report"

/-- Pydantic coercion of a string back into `AgentName` (`AgentName(s)`);
fails on a string that is not a member value. -/
def AgentName.ofValue : String → Option AgentName
  | "static" => some .static
  | "dependency" => some .dependency
  | "secret" => some .secret
  | "fuzzer" => some .fuzzer
  | "dast" => some .dast
  | "template" => some .template
  | "adaptive" => some .adaptive
  | "threat" => some .threat
  | "report" => some .report
  | _ => none

/-- `AgentStatus` enum from `schemas.py`. -/
inductive AgentStatus where
  | pending
  | running
  | completed
  | failed
  | skipped
deriving DecidableEq, Repr

/-- The `.value` string of each `AgentStatus` member. -/
def AgentStatus.value : AgentStatus → String
  | .pending => "pending"
  | .running => "running"
  | .completed => "completed"
  | .failed => "failed"
  | .skipped => "skipped"

/-- Pydantic coercion of a string back into `AgentStatus`. -/
def AgentStatus.ofValue : String → Option AgentStatus
  | "pending" => some .pending
  | "running" => some .running
  | "completed" => some .completed
  | "failed" => some .failed
  | "skipped" => some .skipped
  | _ => none

/-- `FindingSeverity` enum from `schemas.py` (`critical > high > medium > low > informational`). -/
inductive FindingSeverity where
  | critical
  | high
  | medium
  | low
  | info
deriving DecidableEq, Repr

/-- The `.value` string of each `FindingSeverity` member. -/
def FindingSeverity.value : FindingSeverity → String
  | .critical => "critical"
  | .high => "high"
  | .medium => "medium"
  | .low => "low"
  | .info => "informational"

/-- Pydantic coercion of a string back into `FindingSeverity`. -/
def FindingSeverity.ofValue : String → Option FindingSeverity
  | "critical" => some .critical
  | "high" => some .high
  | "medium" => some .medium
  | "low" => some .low
  | "informational" => some .info
  | _ => none

/-- A JSON-like value as stored in the open-ended `metadata` bags of
`Finding` and `VoiceEvent` (`Dict[str, Any]` in the source).  The shapes
actually placed there by the agents and parsers are strings, numbers,
booleans, `None`, lists of strings and string-to-number dictionaries. -/
inductive MetaVal where
  | str (s : String)
  | num (n : Nat)
  | flag (b : Bool)
  | null
  | strs (xs : List String)
  | counts (kvs : List (String × Nat))
deriving DecidableEq, Repr

/-- `Finding` model from `schemas.py`. -/
structure Finding where
  id : String
  title : String
  severity : FindingSeverity
  description : String
  remediation : String
  references : List String := []
  source_agent : AgentName
  metadata : List (String × MetaVal) := []
deriving DecidableEq, Repr

/-- `AgentThought` model from `schemas.py`; timestamps are modelled as
natural numbers. -/
structure AgentThought where
  agent : AgentName
  thought : String
  action_plan : String
  timestamp : Nat
deriving DecidableEq, Repr

/-- `VoiceEventType` enum from `schemas.py`. -/
inductive VoiceEventType where
  | greeting
  | agent_start
  | finding
  | completion
  | thinking
deriving DecidableEq, Repr

/-- The `.value` string of each `VoiceEventType` member. -/
def VoiceEventType.value : VoiceEventType → String
  | .greeting => "greeting"
  | .agent_start => "agent_start"
  | .finding => "finding"
  | .completion => "completion"
  | .thinking => "thinking"

/-- Pydantic coercion of a string back into `VoiceEventType`. -/
def VoiceEventType.ofValue : String → Option VoiceEventType
  | "greeting" => some .greeting
  | "agent_start" => some .agent_start
  | "finding" => some .finding
  | "completion" => some .completion
  | "thinking" => some .thinking
  | _ => none

/-- `VoiceEvent` model from `schemas.py`. -/
structure VoiceEvent where
  scan_id : String
  event_type : VoiceEventType
  message : String
  timestamp : Nat
  metadata : List (String × MetaVal) := []
deriving DecidableEq, Repr

/-- `AgentProgress` model from `schemas.py`; `percent_complete` only ever
takes the values `0.0` and `100.0` in the source, so it is modelled as a
natural number. -/
structure AgentProgress where
  agent : AgentName
  status : AgentStatus := .pending
  started_at : Option Nat := none
  ended_at : Option Nat := none
  percent_complete : Nat := 0
  message : Option String := none
deriving DecidableEq, Repr

/-- `ScanStatus` model from `schemas.py`; `created_at` is a clock value. -/
structure ScanStatus where
  scan_id : String
  target : String
  mode : String
  created_at : Nat
  progress : List AgentProgress
  findings : List Finding := []
  logs : List String := []
  thoughts : List AgentThought := []
  voice_events : List VoiceEvent := []
  github_url : Option String := none
  github_branch : Option String := none
  target_url : Option String := none
  workspace_path : Option String := none
deriving DecidableEq, Repr

/-- `ScanRequest` model from `schemas.py` (the fields read by the
orchestrator).  `Optional[str]` fields are `Option String`; a supplied but
empty string is modelled as `none`, matching the truthiness tests
(`if request.github_url:`) the orchestrator applies to them. -/
structure ScanRequest where
  github_url : Option String := none
  github_branch : String := "main"
  github_token : Option String := none
  target_url : Option String := none
  target : Option String := none
  mode : String := "adaptive"
  enabled_agents : Option (List String) := none
deriving Repr

end AegisScan

namespace AegisScan

/-- ASCII upper-casing of one character, modelling Python's `str.upper`
on the ASCII severity labels the parsers handle. -/
def pyUpperChar (c : Char) : Char :=
  if 'a' ≤ c ∧ c ≤ 'z' then Char.ofNat (c.toNat - 32) else c

/-- ASCII upper-casing of a string (Python `str.upper`). -/
def pyUpper (s : String) : String := ⟨s.data.map pyUpperChar⟩

/-- ASCII lower-casing of one character, modelling Python's `str.lower`. -/
def pyLowerChar (c : Char) : Char :=
  if 'A' ≤ c ∧ c ≤ 'Z' then Char.ofNat (c.toNat + 32) else c

/-- ASCII lower-casing of a string (Python `str.lower`). -/
def pyLower (s : String) : String := ⟨s.data.map pyLowerChar⟩

/-- Python truthiness-based fallback `a or b` for strings: the empty
string is falsy. -/
def pyOrStr (a b : String) : String := if a = "" then b else a

/-- `ToolCommandResult` dataclass from `services/tool_launcher.py`;
`duration` is wall-clock time, modelled as a natural number. -/
structure ToolCommandResult where
  command : List String
  stdout : String
  stderr : String
  exit_code : Int
  duration : Nat
deriving DecidableEq, Repr

/-- `ToolExecutionError` from `services/tool_launcher.py`: the structured
error raised on non-zero exit or timeout, carrying the full captured
`ToolCommandResult`. -/
structure ToolExecutionError where
  result : ToolCommandResult
deriving DecidableEq, Repr

/-- The `str(exc)` message of a `ToolExecutionError`
(`"Command failed ({exit_code}): {command}"`; the `shlex.quote` escaping of
the command words is not modelled). -/
def ToolExecutionError.message (e : ToolExecutionError) : String :=
  "Command failed (" ++ toString e.result.exit_code ++ "): "
    ++ String.intercalate " " e.result.command

/-- `ToolLauncher.run` from `services/tool_launcher.py`, after the external
process finished: a timeout raises `ToolExecutionError` with whatever
partial output was captured, and a non-zero exit code raises
`ToolExecutionError` carrying the full result; otherwise the result is
returned.  The captured outputs and exit code are inputs (`res`) since the
process itself is external. -/
def toolLauncherRun (timedOut : Bool) (res : ToolCommandResult) :
    Except ToolExecutionError ToolCommandResult :=
  if timedOut then .error ⟨res⟩
  else if res.exit_code ≠ 0 then .error ⟨res⟩
  else .ok res

/-- One entry of the gitleaks JSON report, with the fields
`parsers/gitleaks_parser.py` reads via `entry.get`; a missing key is
`none`. -/
structure GitleaksEntry where
  rule : Option String := none
  description : Option String := none
  file : Option String := none
  line : Option Nat := none
deriving DecidableEq, Repr

/-- One finding built by `parse_gitleaks_output` for the entry at
1-based position `idx`. -/
def mkGitleaksFinding (idx : Nat) (e : GitleaksEntry) : Finding :=
  let rule := e.rule.getD "gitleaks finding"
  let description := e.description.getD ""
  let file := e.file.getD "unknown"
  let line := e.line.getD 0
  { id := "gitleaks-" ++ toString idx
    title := rule
    severity := .critical
    description := pyOrStr description "Secret detected by gitleaks"
    remediation := "Rotate the credential and add secret scanning pre-commit hooks."
    source_agent := .secret
    metadata := [("file", .str file), ("line", .num line), ("rule", .str rule)] }

/-- The `enumerate(raw, start=1)` loop of `parse_gitleaks_output`. -/
def parseGitleaksAux (idx : Nat) : List GitleaksEntry → List Finding
  | [] => []
  | e :: rest => mkGitleaksFinding idx e :: parseGitleaksAux (idx + 1) rest

/-- `parse_gitleaks_output` from `parsers/gitleaks_parser.py`. -/
def parse_gitleaks_output (raw : List GitleaksEntry) : List Finding :=
  parseGitleaksAux 1 raw

/-- `json.loads(stdout or "[]")` as used by `SecretAgent.run`: an empty
stdout decodes to the empty list; otherwise the decode is delegated to
`jsonDec`, the model of the external `json` library (`.error` is a raised
`json.JSONDecodeError`, carrying its message). -/
def gitleaksLoads (jsonDec : String → Except String (List GitleaksEntry))
    (stdout : String) : Except String (List GitleaksEntry) :=
  if stdout = "" then .ok [] else jsonDec stdout

/-- `SecretAgent.run` from `agents/secret_agent.py`: fails when the target
path does not exist; invokes gitleaks through the launcher (`launcher` is
the launcher's outcome for the built command); a raised error whose
`result` has exit code 1 means secrets were found, so its stdout is
decoded and parsed anyway; any other launcher error is re-raised; on exit
code 0 the stdout is decoded and parsed.  `.error` carries the raised
exception's message. -/
def secretAgentRun (jsonDec : String → Except String (List GitleaksEntry))
    (targetExists : Bool) (target : String)
    (launcher : Except ToolExecutionError ToolCommandResult) :
    Except String (List Finding) :=
  if ¬ targetExists then
    .error ("Secret scan target does not exist: " ++ target)
  else
    match launcher with
    | .error e =>
      if e.result.exit_code = 1 then
        match gitleaksLoads jsonDec e.result.stdout with
        | .ok payload => .ok (parse_gitleaks_output payload)
        | .error m => .error m
      else .error e.message
    | .ok result =>
      match gitleaksLoads jsonDec result.stdout with
      | .ok payload => .ok (parse_gitleaks_output payload)
      | .error m => .error m

/-- One semgrep result, with the fields `parsers/semgrep_parser.py` reads
(`check_id`, `path`, `start`, `extra.severity`, `extra.message`); a
missing key is `none`; the `start` position object is modelled by its
line number. -/
structure SemgrepResult where
  check_id : Option String := none
  path : Option String := none
  start : Option Nat := none
  extra_severity : Option String := none
  extra_message : Option String := none
deriving DecidableEq, Repr

/-- The semgrep JSON document: `raw.get("results", [])`. -/
structure SemgrepRaw where
  results : Option (List SemgrepResult) := none
deriving DecidableEq, Repr

/-- The `SEVERITY_MAP` dictionary of `parse_semgrep_output`, in source
order. -/
def SEVERITY_MAP : List (String × FindingSeverity) :=
  [("CRITICAL", .critical), ("HIGH", .high), ("MEDIUM", .medium),
   ("LOW", .low), ("INFO", .info), ("INFORMATIONAL", .info),
   ("ERROR", .high), ("WARNING", .medium)]

/-- `SEVERITY_MAP.get(raw_severity, FindingSeverity.LOW)`: the total
severity mapping with default `LOW` for unrecognized labels. -/
def mapSemgrepSeverity (raw_severity : String) : FindingSeverity :=
  ((SEVERITY_MAP.find? (fun p => p.1 = raw_severity)).map (fun p => p.2)).getD .low

/-- A `None`-able string as a metadata value (`result.get("path")`). -/
def metaOfOptStr : Option String → MetaVal
  | some s => .str s
  | none => .null

/-- A `None`-able number as a metadata value (`result.get("start")`). -/
def metaOfOptNat : Option Nat → MetaVal
  | some n => .num n
  | none => .null

/-- One finding built by `parse_semgrep_output` for the result at 1-based
position `idx`. -/
def mkSemgrepFinding (idx : Nat) (r : SemgrepResult) : Finding :=
  let raw_severity := pyUpper (r.extra_severity.getD "LOW")
  { id := "semgrep-" ++ toString idx
    title := r.check_id.getD "semgrep finding"
    severity := mapSemgrepSeverity raw_severity
    description := r.extra_message.getD ""
    remediation := "Review code referenced by Semgrep rule."
    source_agent := .static
    metadata := [("path", metaOfOptStr r.path), ("start", metaOfOptNat r.start)] }

/-- The `enumerate(..., start=1)` loop of `parse_semgrep_output`. -/
def parseSemgrepAux (idx : Nat) : List SemgrepResult → List Finding
  | [] => []
  | r :: rest => mkSemgrepFinding idx r :: parseSemgrepAux (idx + 1) rest

/-- `parse_semgrep_output` from `parsers/semgrep_parser.py`. -/
def parse_semgrep_output (raw : SemgrepRaw) : List Finding :=
  parseSemgrepAux 1 (raw.results.getD [])

end AegisScan

namespace AegisScan

/-- One item of an agent's output sequence, as classified by the
orchestrator (`isinstance(item, AgentThought)` / `isinstance(item, Finding)`). -/
inductive AgentItem where
  | thought (t : AgentThought)
  | finding (f : Finding)
deriving DecidableEq, Repr

/-- The shape of the value produced by calling `agent.run(ctx)`, as
inspected by `Orchestrator._stream_agent_outputs`: either an object with
`__aiter__` (an async generator, yielding a sequence of possibly-`None`
items), or an awaitable whose awaited result is `None`, a `list`/`tuple`
of possibly-`None` items, or a single bare item. -/
inductive RunShape (α : Type) where
  | gen (items : List (Option α))
  | coroNone
  | coroBatch (items : List (Option α))
  | coroSingle (item : α)
deriving DecidableEq, Repr

/-- `Orchestrator._stream_agent_outputs` (orchestrator.py lines 320-340):
normalizes both result shapes to one consumption contract, filtering out
`None` items. -/
def streamAgentOutputs {α : Type} : RunShape α → List α
  | .gen items => items.filterMap id
  | .coroNone => []
  | .coroBatch items => items.filterMap id
  | .coroSingle x => [x]

/-- The model of an LLM client handle (`services/llm_client.py` interface):
`generate(prompt, ...)` either returns the response text or raises, with
the exception's message in `.error`. -/
abbrev LLMBehavior : Type := String → Except String String

/-- The metadata dictionary the orchestrator passes to every agent
(`scan_metadata` in `Orchestrator._run_scan`). -/
structure ScanMeta where
  github_url : Option String := none
  target_url : Option String := none
  branch : String := "main"

/-- `AgentContext` dataclass from `agents/base.py`; `output_dir` is the
per-scan scratch directory path. -/
structure AgentContext where
  scan_id : String
  target : String
  mode : String
  output_dir : String
  previous_findings : List Finding := []
  llm_client : Option LLMBehavior := none
  scan_metadata : ScanMeta := {}

/-- The observable behavior of one agent implementation: its
`display_name` and its `run` method.  A run is modelled by the shape of
the produced value together with an optional exception: the items in the
shape are those produced before the exception (an async generator may
yield items and then raise; a plain coroutine that raises produces no
items). -/
structure AgentBehavior where
  displayName : String
  run : AgentContext → RunShape AgentItem × Option String

/-- Ghost record of one agent invocation made by the orchestrator loop:
the agent slot, the `previous_findings` snapshot it was given, and the
normalized items / exception of its run. -/
structure TraceEntry where
  agent : AgentName
  prev : List Finding
  items : List AgentItem
  err : Option String
deriving Repr

/-- Repository information returned by `GitService.get_repo_info` (always
a total call: it swallows its own errors). -/
structure RepoInfo where
  remote_url : String := "unknown"
  branch : String := "unknown"
  commit : String := "unknown"

/-- The orchestrator's external collaborators and configuration for one
run: the agent registry (`_agent_factories`, `None` = no implementation
registered for the slot), the voice notifier (`enabled` flag plus the
narration texts it produces), the git service outcomes, the LLM client
and the results directory. -/
structure OrchEnv where
  registry : AgentName → Option AgentBehavior
  voiceEnabled : Bool := false
  narrateAgentStart : String → String → VoiceEvent
  narrateThought : AgentThought → String → VoiceEvent
  narrateFinding : Finding → String → VoiceEvent
  narrateCompletion : String → Nat → String → VoiceEvent
  cloneOutcome : Except String String := .error "clone not configured"
  repoInfo : RepoInfo := {}
  llm : Option LLMBehavior := none
  resultsDir : String := "pentest_output"

/-- The runtime state of one `_run_scan` task: the live `ScanStatus`, the
shared mutable `AgentContext`, the `datetime.utcnow` clock, the sequence
of snapshots persisted via `self._results_store.save`, the sequence of
snapshots published via `self._publish`, the voice events broadcast via
`broadcast_voice_event`, and the ghost invocation trace. -/
structure OrchState where
  status : ScanStatus
  ctx : AgentContext
  clock : Nat := 0
  saved : List ScanStatus := []
  published : List ScanStatus := []
  voiceSent : List VoiceEvent := []
  trace : List TraceEntry := []

/-- `Orchestrator._publish`: broadcasts the full current snapshot. -/
def publish (st : OrchState) : OrchState :=
  { st with published := st.published ++ [st.status] }

/-- `self._results_store.save(status)`: persists the full current
snapshot (the store itself is modelled separately; here only the sequence
of saved snapshots is recorded). -/
def saveSnapshot (st : OrchState) : OrchState :=
  { st with saved := st.saved ++ [st.status] }

/-- Appending one log line to `status.logs`. -/
def appendLog (st : OrchState) (line : String) : OrchState :=
  { st with status := { st.status with logs := st.status.logs ++ [line] } }

/-- `Orchestrator._append_findings` (orchestrator.py lines 342-343):
`status.findings.extend(findings)`. -/
def appendFindings (st : OrchState) (fs : List Finding) : OrchState :=
  { st with status := { st.status with findings := st.status.findings ++ fs } }

/-- Recording a voice event: appended to `status.voice_events` and
broadcast on the voice channel. -/
def voiceAppend (st : OrchState) (e : VoiceEvent) : OrchState :=
  { st with
    status := { st.status with voice_events := st.status.voice_events ++ [e] }
    voiceSent := st.voiceSent ++ [e] }

/-- Replacing the progress entry at index `i`. -/
def setProgress (st : OrchState) (i : Nat) (e : AgentProgress) : OrchState :=
  { st with status := { st.status with progress := st.status.progress.set i e } }

/-- Routing of one item yielded by an agent (orchestrator.py lines
256-275): a thought is appended to the thought log and published
immediately (with a narration for the two reasoning agents when voice is
enabled); a finding is appended to the findings list (with a narration
for critical/high findings when voice is enabled). -/
def processItem (env : OrchEnv) (st : OrchState) (it : AgentItem) : OrchState :=
  match it with
  | .thought t =>
    let st := { st with status := { st.status with thoughts := st.status.thoughts ++ [t] } }
    let st := publish st
    if env.voiceEnabled ∧ (t.agent = .adaptive ∨ t.agent = .threat) then
      voiceAppend st (env.narrateThought t st.status.scan_id)
    else st
  | .finding f =>
    let st := appendFindings st [f]
    if env.voiceEnabled ∧ (f.severity = .critical ∨ f.severity = .high) then
      voiceAppend st (env.narrateFinding f st.status.scan_id)
    else st

/-- The per-agent target re-resolution of `_run_scan` (orchestrator.py
lines 236-250): workspace-path agents get the cloned workspace path when
one exists, live-URL agents get the request's `target_url` when one was
supplied, every other agent keeps the previously resolved target. -/
def resolveCtxTarget (ws turl : Option String) (agent : AgentName)
    (ctx : AgentContext) : AgentContext :=
  let ctx :=
    match ws with
    | some w =>
      if agent = AgentName.static ∨ agent = AgentName.dependency ∨ agent = AgentName.secret then
        { ctx with target := w }
      else ctx
    | none => ctx
  match turl with
  | some u =>
    if agent = AgentName.dast ∨ agent = AgentName.fuzzer ∨ agent = AgentName.template then
      { ctx with target := u }
    else ctx
  | none => ctx

/-- The findings among a normalized item sequence, in order. -/
def itemFindings (items : List AgentItem) : List Finding :=
  items.filterMap (fun it =>
    match it with
    | .finding f => some f
    | .thought _ => none)

/-- The thoughts among a normalized item sequence, in order. -/
def itemThoughts (items : List AgentItem) : List AgentThought :=
  items.filterMap (fun it =>
    match it with
    | .thought t => some t
    | .finding _ => none)

/-- The progress entry as it stands after the terminal transition of one
registered agent: `RUNNING` set `started_at`, the try/except set the
status and message, and the finally block set `ended_at` and
`percent_complete = 100`. -/
def terminalProgress (agentName : AgentName) (displayName : String)
    (startedAt endedAt : Nat) (err : Option String) : AgentProgress :=
  { agent := agentName
    status := match err with | none => .completed | some _ => .failed
    started_at := some startedAt
    ended_at := some endedAt
    percent_complete := 100
    message := some (match err with | none => displayName ++ " completed" | some m => m) }

/-- The snapshots published while routing one item (a thought publishes
the snapshot with the thought appended; a finding publishes nothing). -/
def processItemPubs (st : OrchState) (it : AgentItem) : List ScanStatus :=
  match it with
  | .thought t => [{ st.status with thoughts := st.status.thoughts ++ [t] }]
  | .finding _ => []

/-- The snapshots published while routing an item sequence. -/
def processItemsPubs (env : OrchEnv) (st : OrchState) : List AgentItem → List ScanStatus
  | [] => []
  | it :: rest => processItemPubs st it ++ processItemsPubs env (processItem env st it) rest

/-- `entry.message or f"{agent.display_name} finished"`: Python `or`
falls through on `None` and on the empty string. -/
def messageOrFinished (message : Option String) (displayName : String) : String :=
  match message with
  | some m => if m = "" then displayName ++ " finished" else m
  | none => displayName ++ " finished"

/-- One iteration of the agent loop of `Orchestrator._run_scan`
(orchestrator.py lines 219-288) for the progress entry at index `i`:
skip when no implementation is registered; otherwise mark `RUNNING`
(with `started_at` and a publish, plus an optional start narration),
re-resolve the context target for the workspace/live-URL agent families,
refresh `previous_findings` from the live findings list, consume the
agent's normalized output, then in the `finally` block set `ended_at`
and `percent_complete = 100`, append a log line, persist and publish —
with status `COMPLETED` on normal return or `FAILED` (and the exception
message) on a raised error.  `ws` is the cloned `workspace_path` and
`turl` the request's `target_url`. -/
def stepAgent (env : OrchEnv) (ws turl : Option String) (st : OrchState) (i : Nat) :
    OrchState :=
  match st.status.progress[i]? with
  | none => st
  | some entry =>
    match env.registry entry.agent with
    | none => setProgress st i { entry with status := .skipped }
    | some agent =>
      let entry1 : AgentProgress :=
        { entry with status := .running, started_at := some st.clock }
      let st := setProgress { st with clock := st.clock + 1 } i entry1
      let st := publish st
      let st :=
        if env.voiceEnabled then
          voiceAppend st (env.narrateAgentStart agent.displayName st.status.scan_id)
        else st
      let ctx := { resolveCtxTarget ws turl entry.agent st.ctx with
                     previous_findings := st.status.findings }
      let inv := agent.run ctx
      let items := streamAgentOutputs inv.1
      let st :=
        { st with
          ctx := ctx
          trace := st.trace ++ [⟨entry.agent, ctx.previous_findings, items, inv.2⟩] }
      let st := items.foldl (processItem env) st
      let entry2 : AgentProgress :=
        match inv.2 with
        | none => { entry1 with status := .completed
                                message := some (agent.displayName ++ " completed") }
        | some m => { entry1 with status := .failed, message := some m }
      let entry3 : AgentProgress :=
        { entry2 with ended_at := some st.clock, percent_complete := 100 }
      let st := setProgress { st with clock := st.clock + 1 } i entry3
      let st := appendLog st (messageOrFinished entry3.message agent.displayName)
      let st := saveSnapshot st
      let st := publish st
      st

/-- The agent loop of `_run_scan`, iterating the progress entries by
index (`n` is the number of entries still to process, starting at `i`). -/
def runAgentsAux (env : OrchEnv) (ws turl : Option String) :
    Nat → Nat → OrchState → OrchState
  | 0, _, st => st
  | n + 1, i, st => runAgentsAux env ws turl n (i + 1) (stepAgent env ws turl st i)

/-- `for entry in status.progress: ...` — the whole agent loop. -/
def runAgents (env : OrchEnv) (ws turl : Option String) (st : OrchState) : OrchState :=
  runAgentsAux env ws turl st.status.progress.length 0 st

/-- Marking every progress entry `FAILED` with message
`"Repository clone failed"` (orchestrator.py lines 193-195). -/
def markAllFailed (st : OrchState) : OrchState :=
  { st with
    status :=
      { st.status with
        progress := st.status.progress.map
          (fun e => { e with status := .failed, message := some "Repository clone failed" }) } }

/-- Steps 2-4 of `Orchestrator._run_scan` (orchestrator.py lines 198-309):
build the shared `AgentContext` (the target is
`request.target_url or request.target or str(workspace_path or "")`),
run the agent loop, narrate completion when voice is enabled, and in the
`finally` block log and publish the workspace cleanup when a workspace
was cloned. -/
def runScanBody (env : OrchEnv) (request : ScanRequest) (ws : Option String)
    (st : OrchState) : OrchState :=
  let ctx : AgentContext :=
    { scan_id := st.status.scan_id
      target := request.target_url.getD (request.target.getD (ws.getD ""))
      mode := st.status.mode
      output_dir := env.resultsDir ++ "/" ++ st.status.scan_id
      previous_findings := []
      llm_client := env.llm
      scan_metadata :=
        { github_url := request.github_url
          target_url := request.target_url
          branch := request.github_branch } }
  let st := { st with ctx := ctx }
  let st := runAgents env ws request.target_url st
  let st :=
    if env.voiceEnabled then
      voiceAppend st
        (env.narrateCompletion st.status.scan_id st.status.findings.length st.status.target)
    else st
  match ws with
  | some w =>
    let st := appendLog st ("Cleaning up workspace: " ++ w)
    publish st
  | none => st

/-- `Orchestrator._run_scan` (orchestrator.py lines 155-309).  When the
request names a GitHub repository the clone step runs first: its outcome
is `env.cloneOutcome` (`.error` is a raised `GitCloneError` with the
given message).  On clone success the workspace path is recorded and the
repo info logged; on clone failure the error is logged and published,
every progress entry is marked `FAILED` and the run returns without
invoking any agent (the `finally` cleanup does nothing because no
workspace was assigned). -/
def runScan (env : OrchEnv) (request : ScanRequest) (st0 : OrchState) : OrchState :=
  match request.github_url with
  | some url =>
    let st := appendLog st0
      ("Cloning repository: " ++ url ++ " (branch: " ++ request.github_branch ++ ")")
    let st := publish st
    match env.cloneOutcome with
    | .ok wsPath =>
      let st := { st with status := { st.status with workspace_path := some wsPath } }
      let st := appendLog st
        ("Successfully cloned: " ++ env.repoInfo.remote_url ++ " (branch: "
          ++ env.repoInfo.branch ++ ", commit: " ++ env.repoInfo.commit ++ ")")
      let st := publish st
      runScanBody env request (some wsPath) st
    | .error e =>
      let st := appendLog st ("Failed to clone repository: " ++ e)
      let st := publish st
      markAllFailed st
  | none => runScanBody env request none st0

end AegisScan

namespace AegisScan

/-- Number of findings with a given severity (`Counter(f.severity ...)`
lookups with default 0). -/
def countSeverity (fs : List Finding) (s : FindingSeverity) : Nat :=
  (fs.filter (fun f => f.severity = s)).length

/-- `ReActMixin._summarize_findings`: a concise text summary of previous
findings by severity, with the top critical/high titles. -/
def summarizeFindings (findings : List Finding) : String :=
  if findings = [] then ""
  else
    let critical_high := findings.filter
      (fun f => f.severity = FindingSeverity.critical ∨ f.severity = FindingSeverity.high)
    let summary := String.intercalate ", "
      ["Total: " ++ toString findings.length ++ " findings",
       "Critical: " ++ toString (countSeverity findings .critical),
       "High: " ++ toString (countSeverity findings .high),
       "Medium: " ++ toString (countSeverity findings .medium)]
    if critical_high ≠ [] then
      summary ++ "\n\nTop priority findings:\n"
        ++ String.intercalate "\n" ((critical_high.take 3).map
            (fun f => "- " ++ f.title ++ " (from " ++ f.source_agent.value ++ ")"))
    else summary

/-- `ReActMixin._build_thought_prompt`. -/
def buildThoughtPrompt (displayName capabilities : String) (ctx : AgentContext)
    (objective context_summary : String) : String :=
  let findings_summary := summarizeFindings ctx.previous_findings
  "You are the " ++ displayName ++ " agent in a security scanning system.\n\n"
    ++ "**Your Objective**: " ++ objective ++ "\n\n"
    ++ "**Your Capabilities**: " ++ capabilities ++ "\n\n"
    ++ "**Scan Context**:\n- Target: " ++ ctx.target ++ "\n- Mode: " ++ ctx.mode
    ++ "\n- Previous findings: " ++ toString ctx.previous_findings.length
    ++ " findings from other agents\n" ++ context_summary
    ++ "\n\n**Previous Findings Summary**:\n"
    ++ pyOrStr findings_summary "No previous findings yet."
    ++ "\n\n**Task**: Based on the context above, reason about:\n"
    ++ "1. What specific actions should you take?\n"
    ++ "2. Are there patterns or insights from previous findings that inform your approach?\n"
    ++ "3. What are the highest priority areas to focus on?\n"
    ++ "4. What potential issues should you watch for?\n\n"
    ++ "Provide your reasoning in 2-3 concise paragraphs."

/-- `ReActMixin.think` from `agents/react_mixin.py`: with no LLM client a
placeholder thought is returned; with an LLM the generated text becomes
the thought, and a generation error is swallowed and replaced by a
fallback thought — the think step never raises.  Agent-level timestamps
(`datetime.now`) are modelled as 0. -/
def think (name : AgentName) (displayName capabilities : String)
    (ctx : AgentContext) (objective : String) (context_summary : String) :
    AgentThought :=
  match ctx.llm_client with
  | none =>
    { agent := name
      thought := "LLM not available - proceeding with standard execution"
      action_plan := objective, timestamp := 0 }
  | some llm =>
    match llm (buildThoughtPrompt displayName capabilities ctx objective context_summary) with
    | .ok thought_text =>
      { agent := name, thought := thought_text, action_plan := objective, timestamp := 0 }
    | .error e =>
      { agent := name, thought := "Thought generation failed: " ++ e
        action_plan := objective, timestamp := 0 }

/-- `AdaptiveAgent._describe_capabilities`. -/
def adaptiveCapabilities : String :=
  "LLM-powered security analysis including finding correlation, "
    ++ "pattern detection, vulnerability prioritization, and strategic recommendations"

/-- `AdaptiveAgent._build_context_summary`. -/
def buildContextSummary (ctx : AgentContext) : String :=
  let parts := ["Target: " ++ ctx.target, "Mode: " ++ ctx.mode,
    "Previous findings: " ++ toString ctx.previous_findings.length]
  let parts :=
    match ctx.scan_metadata.github_url with
    | some g => parts ++ ["GitHub: " ++ g]
    | none => parts
  let parts :=
    match ctx.scan_metadata.target_url with
    | some u => parts ++ ["Web Target: " ++ u]
    | none => parts
  String.intercalate "\n" parts

/-- The structured analysis dictionary of `AdaptiveAgent._analyze_findings`
(`summary` / `recommendations` / `patterns` / `priorities`, all fields
present after the required-field defaulting). -/
structure Analysis where
  summary : String
  recommendations : String
  patterns : List String := []
  priorities : List String := []
deriving DecidableEq, Repr

/-- Helper for `firstOccurrences`, carrying the set of keys already
seen. -/
def firstOccurrencesAux : List String → List String → List String
  | _, [] => []
  | seen, k :: rest =>
    if k ∈ seen then firstOccurrencesAux seen rest
    else k :: firstOccurrencesAux (k :: seen) rest

/-- The first-occurrence-ordered list of distinct keys (insertion order of
a Python dict built by grouping). -/
def firstOccurrences (l : List String) : List String :=
  firstOccurrencesAux [] l

/-- `AdaptiveAgent._build_analysis_prompt`. -/
def buildAnalysisPrompt (ctx : AgentContext) : String :=
  let findings_summary :=
    (["critical", "high", "medium", "low", "informational"].filter
      (fun sev => ctx.previous_findings.any (fun f => f.severity.value = sev))).map
      (fun sev => "- " ++ pyUpper sev ++ ": "
        ++ toString ((ctx.previous_findings.filter (fun f => f.severity.value = sev)).length)
        ++ " findings")
  let critical_high := ctx.previous_findings.filter
    (fun f => f.severity = FindingSeverity.critical ∨ f.severity = FindingSeverity.high)
  let top_findings_detail := String.intercalate "\n" ((critical_high.take 5).map
    (fun f => "  * " ++ f.title ++ " (from " ++ f.source_agent.value
      ++ ", severity: " ++ f.severity.value ++ ")"))
  "You are analyzing security scan results for: " ++ ctx.target ++ "\n\n"
    ++ "**Findings Summary:**\n" ++ String.intercalate "\n" findings_summary ++ "\n\n"
    ++ "**Top Priority Findings:**\n"
    ++ pyOrStr top_findings_detail "No critical/high severity findings" ++ "\n\n"
    ++ "**Agents that ran:**\n"
    ++ String.intercalate ", "
        (firstOccurrences (ctx.previous_findings.map (fun f => f.source_agent.value)))
    ++ "\n\n**Your Task:**\n"
    ++ "Analyze these findings and provide a strategic security assessment. "
    ++ "Respond ONLY with valid JSON in this exact format:\n\n"
    ++ "\x7b\n  \"summary\": \"2-3 sentence executive summary of the security posture\",\n"
    ++ "  \"patterns\": [\"pattern1\", \"pattern2\"],\n"
    ++ "  \"priorities\": [\"priority1\", \"priority2\", \"priority3\"],\n"
    ++ "  \"recommendations\": \"Strategic recommendations for remediation\"\n\x7d\n\n"
    ++ "Focus on:\n"
    ++ "1. Are there patterns across different findings (e.g., multiple injection vulnerabilities)?\n"
    ++ "2. What are the highest priority issues that need immediate attention?\n"
    ++ "3. Are there systemic issues (poor input validation, weak auth, etc.)?\n"
    ++ "4. What should be addressed first for maximum security impact?\n\n"
    ++ "Return ONLY the JSON object, no additional text."

/-- `AdaptiveAgent._parse_analysis_response`: the markdown-fence
stripping, brace extraction, `json.loads` and required-field defaulting
are modelled by the external decoder `jsonDec` (`none` = no JSON object
could be extracted, or `json.loads` raised); the except branch returns
the response text truncated to 500 characters as the summary — the
function never raises. -/
def parseAnalysisResponse (jsonDec : String → Option Analysis) (response : String) :
    Analysis :=
  match jsonDec response with
  | some analysis => analysis
  | none =>
    { summary := response.take 500
      recommendations := "Review the analysis summary above"
      patterns := [], priorities := [] }

/-- `AdaptiveAgent._analyze_findings`: with no previous findings a fixed
dictionary is returned without consulting the LLM; otherwise the LLM
response is parsed, and a generation error is caught and converted into a
failure-summary dictionary — the function never raises. -/
def analyzeFindings (jsonDec : String → Option Analysis) (llm : LLMBehavior)
    (ctx : AgentContext) : Analysis :=
  if ctx.previous_findings = [] then
    { summary := "No findings from previous agents to analyze."
      recommendations := "Scan completed successfully with no issues detected."
      patterns := [], priorities := [] }
  else
    match llm (buildAnalysisPrompt ctx) with
    | .ok response => parseAnalysisResponse jsonDec response
    | .error e =>
      { summary := "Analysis generation failed: " ++ e
        recommendations := "Review findings manually"
        patterns := [], priorities := [] }

/-- `AdaptiveAgent._create_basic_finding`: the deterministic fallback
finding yielded when no LLM client is available. -/
def createBasicFinding (ctx : AgentContext) : Finding :=
  { id := ctx.scan_id ++ "-adaptive-basic"
    title := "Basic Scan Summary"
    severity := .info
    description := "Scan completed with " ++ toString ctx.previous_findings.length
      ++ " total findings. LLM-powered analysis not available."
    remediation := "Review all findings and prioritize based on severity"
    source_agent := .adaptive
    metadata := [("total_findings", .num ctx.previous_findings.length),
      ("llm_available", .flag false)] }

/-- The `adaptive-analysis` finding yielded on the LLM path of
`AdaptiveAgent.run`. -/
def adaptiveAnalysisFinding (ctx : AgentContext) (analysis : Analysis) : Finding :=
  { id := ctx.scan_id ++ "-adaptive-analysis"
    title := "Adaptive Security Analysis"
    severity := .info
    description := analysis.summary
    remediation := analysis.recommendations
    source_agent := .adaptive
    metadata := [("llm_provider", .str "gemini"),
      ("total_findings_analyzed", .num ctx.previous_findings.length),
      ("patterns", .strs analysis.patterns),
      ("priorities", .strs analysis.priorities)] }

/-- `AdaptiveAgent.run` from `agents/adaptive_agent.py`: an async
generator that yields its think-step thought, then either the basic
fallback finding (no LLM client) or the analysis finding.  Every LLM
error is caught inside `think` / `_analyze_findings`, so the run never
raises (the source's own `adaptive-error` except branch is unreachable:
nothing in the guarded region can raise once `_analyze_findings` has
swallowed LLM errors). -/
def adaptiveAgentRun (jsonDec : String → Option Analysis) (ctx : AgentContext) :
    RunShape AgentItem × Option String :=
  let thought := think .adaptive "LLM Adaptive Agent" adaptiveCapabilities ctx
    "Analyze scan results and provide adaptive security recommendations"
    (buildContextSummary ctx)
  match ctx.llm_client with
  | none =>
    (.gen [some (.thought thought), some (.finding (createBasicFinding ctx))], none)
  | some llm =>
    let analysis := analyzeFindings jsonDec llm ctx
    (.gen [some (.thought thought),
           some (.finding (adaptiveAnalysisFinding ctx analysis))], none)

end AegisScan

namespace AegisScan

/-- `ThreatAgent._describe_capabilities`. -/
def threatCapabilities : String :=
  "Threat prioritization including deduplication, severity analysis, "
    ++ "and attack vector identification"

/-- The `threat-none` finding yielded when there are no previous
findings. -/
def noThreatsFinding (ctx : AgentContext) : Finding :=
  { id := ctx.scan_id ++ "-threat-none"
    title := "No Threats Identified"
    severity := .info
    description := "Scan completed with no security findings to prioritize."
    remediation := "Continue regular security monitoring"
    source_agent := .threat
    metadata := [("total_findings", .num 0)] }

/-- The loop of `ThreatAgent._deduplicate_findings`, carrying the
`seen_titles` set of `(title.lower(), source_agent)` keys. -/
def dedupFindingsAux : List (String × AgentName) → List Finding → List Finding
  | _, [] => []
  | seen, f :: rest =>
    let key := (pyLower f.title, f.source_agent)
    if key ∈ seen then dedupFindingsAux seen rest
    else f :: dedupFindingsAux (key :: seen) rest

/-- `ThreatAgent._deduplicate_findings`: keeps the first finding for each
`(title.lower(), source_agent)` key, preserving order. -/
def dedupFindings (findings : List Finding) : List Finding :=
  dedupFindingsAux [] findings

/-- `ThreatAgent._build_priority_message`. -/
def buildPriorityMessage (findings critical_high : List Finding)
    (duplicates_removed : Nat) : String :=
  let severity_summary :=
    (([.critical, .high, .medium, .low] : List FindingSeverity).filter
      (fun s => 0 < countSeverity findings s)).map
      (fun s => pyUpper s.value ++ ": " ++ toString (countSeverity findings s))
  let summary_text :=
    if severity_summary = [] then "No findings"
    else String.intercalate ", " severity_summary
  let message_parts := ["Threat analysis complete. Findings: " ++ summary_text ++ "."]
  let message_parts :=
    if 0 < duplicates_removed then
      message_parts ++ [toString duplicates_removed ++ " duplicate findings removed."]
    else message_parts
  let message_parts :=
    if critical_high ≠ [] then
      message_parts
        ++ [toString critical_high.length
              ++ " high-priority issues require immediate attention.",
            "\nTop threats:\n" ++ String.intercalate "\n" ((critical_high.take 3).map
              (fun f => "- " ++ f.title ++ " (from " ++ f.source_agent.value ++ ")"))]
    else message_parts
  String.intercalate " " message_parts

/-- The structured insights dictionary of
`ThreatAgent._generate_threat_insights`. -/
structure ThreatInsights where
  attack_vectors : List String
  remediation_order : String
deriving DecidableEq, Repr

/-- The keyword list of `ThreatAgent._extract_attack_vectors`. -/
def attackKeywords : List String :=
  ["injection", "xss", "csrf", "auth", "authentication",
   "authorization", "sql", "command", "file upload",
   "path traversal", "ssrf", "deserialization"]

/-- Python `needle in hay` substring membership (for non-empty needles). -/
def strContainsSub (hay needle : String) : Bool :=
  1 < (hay.splitOn needle).length

/-- `ThreatAgent._extract_attack_vectors`: keyword scan over the
lower-cased LLM response, keeping the first five matches. -/
def extractAttackVectors (llm_response : String) : List String :=
  (attackKeywords.filter (fun k => strContainsSub (pyLower llm_response) k)).take 5

/-- The prompt of `ThreatAgent._generate_threat_insights`. -/
def buildThreatPrompt (ctx : AgentContext) (critical_high : List Finding) : String :=
  let findings_list := String.intercalate "\n" ((critical_high.take 10).map
    (fun f => "- " ++ f.title ++ " (" ++ f.severity.value ++ "): "
      ++ f.description.take 100))
  "You are analyzing security threats for: " ++ ctx.target ++ "\n\n"
    ++ "**Critical/High Severity Findings:**\n" ++ findings_list ++ "\n\n"
    ++ "**Task:**\nAnalyze these threats and provide:\n"
    ++ "1. The most likely attack vectors\n"
    ++ "2. Recommended remediation order (which to fix first and why)\n\n"
    ++ "Be concise. Respond in 2-3 sentences."

/-- `ThreatAgent._generate_threat_insights`: on LLM success the attack
vectors and remediation order are extracted; a generation error is caught
(both inside the helper and at its call site) and yields the empty
dictionary, modelled as `none`. -/
def generateThreatInsights (llm : LLMBehavior) (ctx : AgentContext)
    (critical_high : List Finding) : Option ThreatInsights :=
  match llm (buildThreatPrompt ctx critical_high) with
  | .ok response =>
    some { attack_vectors := extractAttackVectors response
           remediation_order := response.trim }
  | .error _ => none

/-- One step of building a Python `Counter` keyed by strings in insertion
order. -/
def bumpKey : List (String × Nat) → String → List (String × Nat)
  | [], k => [(k, 1)]
  | (k', n) :: rest, k =>
    if k' = k then (k', n + 1) :: rest else (k', n) :: bumpKey rest k

/-- `Counter(f.source_agent for f in findings)` as an insertion-ordered
string-keyed dictionary. -/
def agentCountsList (fs : List Finding) : List (String × Nat) :=
  fs.foldl (fun acc f => bumpKey acc f.source_agent.value) []

/-- The `threat-priority` finding yielded by `ThreatAgent.run` when there
are previous findings (`llm_insights.get(...)` defaults apply when the
insights dictionary is empty). -/
def threatPriorityFinding (ctx : AgentContext) (deduplicated : List Finding)
    (duplicates_removed : Nat) (priority_message : String)
    (llm_insights : Option ThreatInsights) : Finding :=
  { id := ctx.scan_id ++ "-threat-priority"
    title := "Threat Prioritization Analysis"
    severity := .info
    description := priority_message
    remediation :=
      match llm_insights with
      | some i => i.remediation_order
      | none => "Address Critical and High severity issues first, then Medium and Low."
    source_agent := .threat
    metadata := [("total_findings", .num ctx.previous_findings.length),
      ("unique_findings", .num deduplicated.length),
      ("duplicates_removed", .num duplicates_removed),
      ("critical_count", .num (countSeverity ctx.previous_findings .critical)),
      ("high_count", .num (countSeverity ctx.previous_findings .high)),
      ("medium_count", .num (countSeverity ctx.previous_findings .medium)),
      ("low_count", .num (countSeverity ctx.previous_findings .low)),
      ("by_agent", .counts (agentCountsList ctx.previous_findings)),
      ("attack_vectors", .strs
        (match llm_insights with
         | some i => i.attack_vectors
         | none => []))] }

/-- `ThreatAgent.run` from `agents/threat_agent.py`: yields its
think-step thought, then either the `threat-none` finding (no previous
findings) or the rule-based prioritization finding; the optional LLM
insight step only runs when an LLM client is present and critical/high
findings exist, and its errors are swallowed — the run never raises. -/
def threatAgentRun (ctx : AgentContext) : RunShape AgentItem × Option String :=
  let thought := think .threat "Threat Prioritization" threatCapabilities ctx
    "Prioritize security threats and identify attack vectors"
    ("Analyzing " ++ toString ctx.previous_findings.length ++ " findings")
  if ctx.previous_findings = [] then
    (.gen [some (.thought thought), some (.finding (noThreatsFinding ctx))], none)
  else
    let deduplicated := dedupFindings ctx.previous_findings
    let duplicates_removed := ctx.previous_findings.length - deduplicated.length
    let critical_high := ctx.previous_findings.filter
      (fun f => f.severity = FindingSeverity.critical ∨ f.severity = FindingSeverity.high)
    let priority_message :=
      buildPriorityMessage ctx.previous_findings critical_high duplicates_removed
    let llm_insights :=
      match ctx.llm_client with
      | some llm =>
        if critical_high ≠ [] then generateThreatInsights llm ctx critical_high
        else none
      | none => none
    (.gen [some (.thought thought),
           some (.finding (threatPriorityFinding ctx deduplicated
             duplicates_removed priority_message llm_insights))], none)

end AegisScan

namespace AegisScan

/-- `ReportAgent._describe_capabilities`. -/
def reportCapabilities : String :=
  "Security report generation with executive summaries, finding details, "
    ++ "and remediation recommendations"

/-- Indexed map starting at index `i` (Python `enumerate(..., start=i)`). -/
def enumMapFrom {α β : Type} (f : Nat → α → β) : Nat → List α → List β
  | _, [] => []
  | i, a :: l => f i a :: enumMapFrom f (i + 1) l

/-- The per-finding section of `ReportAgent._generate_basic_report`. -/
def basicReportFindingSection (i : Nat) (f : Finding) : List String :=
  ["### " ++ toString i ++ ". " ++ f.title, "",
   "**Severity**: " ++ pyUpper f.severity.value,
   "**Source**: " ++ f.source_agent.value, "",
   "**Description**:", f.description, "",
   "**Remediation**:", f.remediation, ""]
  ++ (if f.references ≠ [] then
        ["**References**:"] ++ f.references.map (fun r => "- " ++ r) ++ [""]
      else [])
  ++ ["---", ""]

/-- `ReportAgent._generate_basic_report`: the template-based markdown
report built without any LLM (the `datetime.now` stamp is modelled by the
placeholder `TIMESTAMP`). -/
def generateBasicReport (ctx : AgentContext) : String :=
  let header := ["# AegisScan Security Report", "",
    "**Target**: " ++ ctx.target,
    "**Scan Mode**: " ++ ctx.mode,
    "**Generated**: TIMESTAMP",
    "**Scan ID**: " ++ ctx.scan_id, "", "---", ""]
  let body :=
    if ctx.previous_findings = [] then
      ["## Summary", "", "No security findings were identified in this scan.", ""]
    else
      ["## Executive Summary", "",
       "This scan identified **" ++ toString ctx.previous_findings.length
         ++ " security findings** across multiple analysis techniques.", "",
       "### Findings by Severity", ""]
      ++ (["critical", "high", "medium", "low", "informational"].filterMap (fun sev =>
            let count := (ctx.previous_findings.filter (fun f => f.severity.value = sev)).length
            if 0 < count then some ("- **" ++ pyUpper sev ++ "**: " ++ toString count)
            else none))
      ++ ["", "---", "", "## Detailed Findings", ""]
      ++ (enumMapFrom basicReportFindingSection 1 ctx.previous_findings).flatten
  let footer := ["## Recommendations", "",
    "1. Address all CRITICAL and HIGH severity findings immediately",
    "2. Plan remediation for MEDIUM severity issues",
    "3. Track LOW and INFO findings for future improvements",
    "4. Re-scan after applying fixes to verify remediation",
    "", "---", "",
    "*Report generated by AegisScan - Multi-Agent Security Platform*"]
  String.intercalate "\n" (header ++ body ++ footer)

/-- The prompt of `ReportAgent._generate_executive_summary`. -/
def buildExecSummaryPrompt (ctx : AgentContext) : String :=
  let critical_high := ctx.previous_findings.filter
    (fun f => f.severity = FindingSeverity.critical ∨ f.severity = FindingSeverity.high)
  let findings_summary := String.intercalate "\n" ((ctx.previous_findings.take 15).map
    (fun f => "- " ++ f.title ++ " (" ++ f.severity.value ++ ") from "
      ++ f.source_agent.value))
  "You are writing an executive summary for a security scan report.\n\n"
    ++ "**Target**: " ++ ctx.target ++ "\n"
    ++ "**Total Findings**: " ++ toString ctx.previous_findings.length ++ "\n"
    ++ "**Critical/High**: " ++ toString critical_high.length ++ "\n\n"
    ++ "**Key Findings:**\n" ++ findings_summary ++ "\n\n"
    ++ "**Task:**\nWrite a 3-4 sentence executive summary for business stakeholders. Focus on:\n"
    ++ "1. Overall security posture\n2. Most critical risks\n3. Recommended next steps\n\n"
    ++ "Be clear, concise, and business-friendly (avoid overly technical jargon)."

/-- `ReportAgent._generate_executive_summary`: a generation error is
caught and replaced by a fixed fallback sentence — never raises. -/
def generateExecutiveSummary (llm : LLMBehavior) (ctx : AgentContext) : String :=
  match llm (buildExecSummaryPrompt ctx) with
  | .ok summary => summary.trim
  | .error _ =>
    "Executive summary generation failed. Please review detailed findings below."

/-- `ReportAgent._generate_llm_report`: inserts the LLM executive summary
after the first `---` divider of the basic report; if no divider is found
(`lines.index` raising, impossible for reports built here) the basic
report is returned, matching the enclosing except branch. -/
def generateLlmReport (llm : LLMBehavior) (ctx : AgentContext) : String :=
  let base_report := generateBasicReport ctx
  let exec_summary := generateExecutiveSummary llm ctx
  let lines := base_report.splitOn "\n"
  match lines.findIdx? (fun l => l = "---") with
  | some header_end =>
    String.intercalate "\n"
      (lines.take (header_end + 1)
        ++ ["", "## AI-Generated Executive Summary", ""]
        ++ [exec_summary, "", "---", ""]
        ++ lines.drop (header_end + 1))
  | none => base_report

/-- The `report` finding yielded by `ReportAgent.run` on the successful
path (`pdf_path` is `None` when the internally-caught PDF generation
failed). -/
def reportFinding (reportsDir : String) (ctx : AgentContext) (pdf_generated : Bool) :
    Finding :=
  { id := ctx.scan_id ++ "-report"
    title := "Security Scan Report Generated"
    severity := .info
    description := "Comprehensive markdown report created with "
      ++ toString ctx.previous_findings.length ++ " findings analyzed."
    remediation := "Review report and track remediation progress with stakeholders."
    source_agent := .report
    metadata := [("report_path", .str (reportsDir ++ "/" ++ ctx.scan_id ++ ".md")),
      ("pdf_path",
        if pdf_generated then .str (reportsDir ++ "/" ++ ctx.scan_id ++ ".pdf")
        else .null),
      ("total_findings", .num ctx.previous_findings.length),
      ("llm_enhanced", .flag ctx.llm_client.isSome)] }

/-- `ReportAgent.run` from `agents/report_agent.py`: yields its
think-step thought, builds the report content (LLM-enhanced only when a
client is present and findings exist — all LLM errors are swallowed
inside the helpers), writes it to disk and yields the report finding.
The filesystem is external: `fsErr = some e` means `report_path.write_text`
raises `e`; in that case the except branch's minimal-report write raises
again and the run fails — with a working filesystem the run never raises.
`pdfOk` is the boolean returned by `_write_pdf_report`, which catches its
own errors. -/
def reportAgentRun (reportsDir : String) (fsErr : Option String) (pdfOk : Bool)
    (ctx : AgentContext) : RunShape AgentItem × Option String :=
  let thought := think .report "Reporting Agent" reportCapabilities ctx
    "Generate comprehensive security scan report"
    ("Summarizing " ++ toString ctx.previous_findings.length ++ " findings")
  let report_content :=
    match ctx.llm_client with
    | some llm =>
      if ctx.previous_findings ≠ [] then generateLlmReport llm ctx
      else generateBasicReport ctx
    | none => generateBasicReport ctx
  match fsErr with
  | none =>
    let pdf_generated := pdfOk
    let _unused := report_content
    (.gen [some (.thought thought),
           some (.finding (reportFinding reportsDir ctx pdf_generated))], none)
  | some e =>
    (.gen [some (.thought thought)], some e)

/-- A coroutine-style `run` that returns a list of findings, or raises:
the value shape handed to `_stream_agent_outputs` (used to wrap
`SecretAgent.run`). -/
def invocationOfCoroResult (x : Except String (List Finding)) :
    RunShape AgentItem × Option String :=
  match x with
  | .ok fs => (.coroBatch (fs.map (fun f => some (.finding f))), none)
  | .error m => (.coroNone, some m)

/-- The `AgentBehavior` of `AdaptiveAgent`. -/
def adaptiveBehavior (jsonDec : String → Option Analysis) : AgentBehavior :=
  { displayName := "LLM Adaptive Agent", run := adaptiveAgentRun jsonDec }

/-- The `AgentBehavior` of `ThreatAgent`. -/
def threatBehavior : AgentBehavior :=
  { displayName := "Threat Prioritization", run := threatAgentRun }

/-- The `AgentBehavior` of `ReportAgent`. -/
def reportBehavior (reportsDir : String) (fsErr : Option String) (pdfOk : Bool) :
    AgentBehavior :=
  { displayName := "Reporting Agent", run := reportAgentRun reportsDir fsErr pdfOk }

end AegisScan

namespace AegisScan

/-- `FindingDB` row from `database.py` as written by `DatabaseStore.save`:
the row id is `f"{scan_id}_{finding.id}"`; `references` and `metadata`
are stored via `json.dumps` and read back via `json.loads`, modelled as
identity round-trips on the structured values. -/
structure FindingRow where
  id : String
  scan_id : String
  title : String
  severity : String
  description : String
  remediation : String
  references : List String
  source_agent : String
  finding_metadata : List (String × MetaVal)
deriving DecidableEq, Repr

/-- `AgentProgressDB` row. -/
structure ProgressRow where
  scan_id : String
  agent : String
  status : String
  started_at : Option Nat
  ended_at : Option Nat
  percent_complete : Nat
  message : Option String
deriving DecidableEq, Repr

/-- `AgentThoughtDB` row. -/
structure ThoughtRow where
  scan_id : String
  agent : String
  thought : String
  action_plan : String
  timestamp : Nat
deriving DecidableEq, Repr

/-- `VoiceEventDB` row. -/
structure VoiceRow where
  scan_id : String
  event_type : String
  message : String
  timestamp : Nat
  event_metadata : List (String × MetaVal)
deriving DecidableEq, Repr

/-- `ScanLogDB` row; its `timestamp` column is `datetime.utcnow()` at
save time, modelled as 0 (it is never read back). -/
structure LogRow where
  scan_id : String
  log_entry : String
  timestamp : Nat
deriving DecidableEq, Repr

/-- A `ScanDB` row together with its related child rows. -/
structure ScanRecord where
  scan_id : String
  target : String
  mode : String
  created_at : Nat
  github_url : Option String
  github_branch : Option String
  target_url : Option String
  workspace_path : Option String
  findings : List FindingRow
  progress : List ProgressRow
  thoughts : List ThoughtRow
  voice_events : List VoiceRow
  logs : List LogRow
deriving DecidableEq, Repr

/-- The relational store: records keyed by scan id. -/
abbrev ScanDatabase : Type := List (String × ScanRecord)

/-- The `FindingDB(...)` constructor call inside `DatabaseStore.save`. -/
def findingRowOf (scan_id : String) (f : Finding) : FindingRow :=
  { id := scan_id ++ "_" ++ f.id
    scan_id := scan_id
    title := f.title
    severity := f.severity.value
    description := f.description
    remediation := f.remediation
    references := f.references
    source_agent := f.source_agent.value
    finding_metadata := f.metadata }

/-- The `AgentProgressDB(...)` constructor call inside `DatabaseStore.save`. -/
def progressRowOf (scan_id : String) (p : AgentProgress) : ProgressRow :=
  { scan_id := scan_id
    agent := p.agent.value
    status := p.status.value
    started_at := p.started_at
    ended_at := p.ended_at
    percent_complete := p.percent_complete
    message := p.message }

/-- The `AgentThoughtDB(...)` constructor call inside `DatabaseStore.save`. -/
def thoughtRowOf (scan_id : String) (t : AgentThought) : ThoughtRow :=
  { scan_id := scan_id
    agent := t.agent.value
    thought := t.thought
    action_plan := t.action_plan
    timestamp := t.timestamp }

/-- The `VoiceEventDB(...)` constructor call inside `DatabaseStore.save`
(note: the stored `scan_id` is the scan's id, not the event's own field). -/
def voiceRowOf (scan_id : String) (v : VoiceEvent) : VoiceRow :=
  { scan_id := scan_id
    event_type := v.event_type.value
    message := v.message
    timestamp := v.timestamp
    event_metadata := v.metadata }

/-- The `ScanLogDB(...)` constructor call inside `DatabaseStore.save`. -/
def logRowOf (scan_id : String) (line : String) : LogRow :=
  { scan_id := scan_id, log_entry := line, timestamp := 0 }

/-- The full record written by one `DatabaseStore.save(status)` call:
the scan row's columns are set from `status` and every existing child
row is deleted and replaced by rows freshly built from `status`. -/
def recordOfStatus (s : ScanStatus) : ScanRecord :=
  { scan_id := s.scan_id
    target := s.target
    mode := s.mode
    created_at := s.created_at
    github_url := s.github_url
    github_branch := s.github_branch
    target_url := s.target_url
    workspace_path := s.workspace_path
    findings := s.findings.map (findingRowOf s.scan_id)
    progress := s.progress.map (progressRowOf s.scan_id)
    thoughts := s.thoughts.map (thoughtRowOf s.scan_id)
    voice_events := s.voice_events.map (voiceRowOf s.scan_id)
    logs := s.logs.map (logRowOf s.scan_id) }

/-- `DatabaseStore.save`: update the existing scan row in place (children
replaced wholesale) or insert a new one. -/
def dbSave (db : ScanDatabase) (s : ScanStatus) : ScanDatabase :=
  if (db.find? (fun p => p.1 = s.scan_id)).isSome then
    db.map (fun p => if p.1 = s.scan_id then (p.1, recordOfStatus s) else p)
  else db ++ [(s.scan_id, recordOfStatus s)]

/-- `Option`-valued traversal of a list (the row-by-row conversion loops
of `DatabaseStore._convert_to_scan_status`; a failed enum coercion on any
row fails the whole load, matching a raised pydantic validation error). -/
def listMapM {α β : Type} (f : α → Option β) : List α → Option (List β)
  | [] => some []
  | a :: l =>
    match f a with
    | none => none
    | some b => (listMapM f l).map (fun bs => b :: bs)

/-- Reading a `FindingDB` row back into a `Finding`
(`_convert_to_scan_status`): the pydantic model coerces the stored
severity / source-agent value strings back into their enums; note the
`Finding.id` is the stored row id, i.e. the scan-id-prefixed one. -/
def findingOfRow (r : FindingRow) : Option Finding :=
  match FindingSeverity.ofValue r.severity, AgentName.ofValue r.source_agent with
  | some sev, some ag =>
    some { id := r.id
           title := r.title
           severity := sev
           description := r.description
           remediation := r.remediation
           references := r.references
           source_agent := ag
           metadata := r.finding_metadata }
  | _, _ => none

/-- Reading an `AgentProgressDB` row back into an `AgentProgress`. -/
def progressOfRow (r : ProgressRow) : Option AgentProgress :=
  match AgentName.ofValue r.agent, AgentStatus.ofValue r.status with
  | some ag, some st =>
    some { agent := ag
           status := st
           started_at := r.started_at
           ended_at := r.ended_at
           percent_complete := r.percent_complete
           message := r.message }
  | _, _ => none

/-- Reading an `AgentThoughtDB` row back into an `AgentThought`. -/
def thoughtOfRow (r : ThoughtRow) : Option AgentThought :=
  (AgentName.ofValue r.agent).map (fun ag =>
    { agent := ag
      thought := r.thought
      action_plan := r.action_plan
      timestamp := r.timestamp })

/-- Reading a `VoiceEventDB` row back into a `VoiceEvent`. -/
def voiceOfRow (r : VoiceRow) : Option VoiceEvent :=
  (VoiceEventType.ofValue r.event_type).map (fun ty =>
    { scan_id := r.scan_id
      event_type := ty
      message := r.message
      timestamp := r.timestamp
      metadata := r.event_metadata })

/-- `DatabaseStore._convert_to_scan_status`. -/
def statusOfRecord (r : ScanRecord) : Option ScanStatus :=
  match listMapM findingOfRow r.findings, listMapM progressOfRow r.progress,
        listMapM thoughtOfRow r.thoughts, listMapM voiceOfRow r.voice_events with
  | some findings, some progress, some thoughts, some voice_events =>
    some { scan_id := r.scan_id
           target := r.target
           mode := r.mode
           created_at := r.created_at
           progress := progress
           findings := findings
           logs := r.logs.map (fun l => l.log_entry)
           thoughts := thoughts
           voice_events := voice_events
           github_url := r.github_url
           github_branch := r.github_branch
           target_url := r.target_url
           workspace_path := r.workspace_path }
  | _, _, _, _ => none

/-- `DatabaseStore.load`. -/
def dbLoad (db : ScanDatabase) (scan_id : String) : Option ScanStatus :=
  match db.find? (fun p => p.1 = scan_id) with
  | some p => statusOfRecord p.2
  | none => none

/-- `DatabaseStore.list_scans` as a scan-id-keyed dictionary (the
`created_at`-descending ordering of the underlying query does not affect
keyed lookup and is not modelled). -/
def dbListScans (db : ScanDatabase) : List (String × ScanStatus) :=
  db.filterMap (fun p => (statusOfRecord p.2).map (fun s => (s.scan_id, s)))

/-- The in-memory `self._scans` dictionary of the orchestrator. -/
abbrev ScansDict : Type := List (String × ScanStatus)

/-- Python dict lookup. -/
def dictLookup (d : ScansDict) (k : String) : Option ScanStatus :=
  (d.find? (fun p => p.1 = k)).map (fun p => p.2)

/-- Python dict item assignment `d[k] = v`. -/
def dictInsert (d : ScansDict) (k : String) (v : ScanStatus) : ScansDict :=
  if d.any (fun p => p.1 = k) then d.map (fun p => if p.1 = k then (k, v) else p)
  else d ++ [(k, v)]

/-- Python `{**a, **b}`: keys of `a` in order with values overridden by
`b`, followed by the keys only in `b`. -/
def pyDictUpdate (a b : ScansDict) : ScansDict :=
  (a.map (fun p =>
    match b.find? (fun q => q.1 = p.1) with
    | some q => (p.1, q.2)
    | none => p))
  ++ b.filter (fun q => ¬ a.any (fun p => p.1 = q.1))

/-- `Orchestrator.get_status` (orchestrator.py lines 345-348): the live
in-memory status when the scan id is known to this instance, otherwise a
load from the persistent store. -/
def get_status (scans : ScansDict) (db : ScanDatabase) (scan_id : String) :
    Option ScanStatus :=
  match dictLookup scans scan_id with
  | some s => some s
  | none => dbLoad db scan_id

/-- `Orchestrator.list_scans` (orchestrator.py lines 350-351):
`{**self._results_store.list_scans(), **self._scans}`. -/
def list_scans (scans : ScansDict) (db : ScanDatabase) : ScansDict :=
  pyDictUpdate (dbListScans db) scans

end AegisScan

namespace AegisScan

/-- Fixture: a semgrep result whose native severity label is
unrecognized. -/
def semgrepResultC9 : SemgrepResult := { extra_severity := some "weird" }

/-- Fixture: a semgrep document with one unrecognized-severity result. -/
def semgrepRawC9 : SemgrepRaw := { results := some [semgrepResultC9] }

end AegisScan

namespace AegisScan

/-- Fixture: one gitleaks report entry. -/
def gitleaksEntryC5 : GitleaksEntry :=
  { rule := some "aws-access-key", description := some "AWS access key detected"
    file := some "config.py", line := some 3 }

/-- Fixture: a json decoder that parses the gitleaks stdout into one
entry. -/
def jsonDecC5 : String → Except String (List GitleaksEntry) :=
  fun _ => .ok [gitleaksEntryC5]

/-- Fixture: a captured gitleaks run that exited with code 1 and JSON on
stdout. -/
def toolResultExit1 : ToolCommandResult :=
  { command := ["gitleaks", "detect"], stdout := "[x]", stderr := ""
    exit_code := 1, duration := 0 }

/-- Fixture: a captured gitleaks run that exited with code 2. -/
def toolResultExit2 : ToolCommandResult :=
  { command := ["gitleaks", "detect"], stdout := "", stderr := "boom"
    exit_code := 2, duration := 0 }

end AegisScan

namespace AegisScan

/-- Fixture: a constant narration event for test environments. -/
def dummyVoiceEvent : VoiceEvent :=
  { scan_id := "", event_type := .greeting, message := "", timestamp := 0 }

/-- Fixture: an orchestrator environment with an empty agent registry and
inert collaborators. -/
def baseEnv : OrchEnv :=
  { registry := fun _ => none
    narrateAgentStart := fun _ _ => dummyVoiceEvent
    narrateThought := fun _ _ => dummyVoiceEvent
    narrateFinding := fun _ _ => dummyVoiceEvent
    narrateCompletion := fun _ _ _ => dummyVoiceEvent }

/-- Fixture: an agent whose run returns `None` and never raises. -/
def noopBehavior : AgentBehavior :=
  { displayName := "Noop", run := fun _ => (RunShape.coroNone, none) }

/-- Fixture: an environment registering the noop agent in every slot. -/
def envC4 : OrchEnv := { baseEnv with registry := fun _ => some noopBehavior }

/-- Fixture: a one-agent scan state. -/
def stC4 : OrchState :=
  { status := { scan_id := "s", target := "t", mode := "adaptive", created_at := 0
                progress := [{ agent := .static }] }
    ctx := { scan_id := "s", target := "t", mode := "adaptive", output_dir := "o" } }

end AegisScan

namespace AegisScan

/-- Fixture: a scan request naming a remote repository. -/
def requestC3 : ScanRequest := { github_url := some "https://github.com/u/r" }

/-- Fixture: an environment whose clone step raises `GitCloneError`. -/
def envC3 : OrchEnv := { baseEnv with cloneOutcome := .error "exit 128" }

end AegisScan

namespace AegisScan

/-- Fixture: an agent whose run always raises `boom`. -/
def failingBehavior : AgentBehavior :=
  { displayName := "Fail", run := fun _ => (RunShape.coroNone, some "boom") }

/-- Fixture: the finding yielded by the second fixture agent. -/
def findingC1 : Finding :=
  { id := "d1", title := "Dep issue", severity := .high, description := ""
    remediation := "", source_agent := .dependency }

/-- Fixture: an agent that yields one finding and returns normally. -/
def yieldingBehavior : AgentBehavior :=
  { displayName := "Yield"
    run := fun _ => (RunShape.gen [some (.finding findingC1)], none) }

/-- Fixture: an environment in which the static slot fails and every
other slot yields one finding. -/
def envC1 : OrchEnv :=
  { baseEnv with registry := fun a =>
      match a with
      | .static => some failingBehavior
      | _ => some yieldingBehavior }

/-- Fixture: a two-agent scan state. -/
def stC1 : OrchState :=
  { status := { scan_id := "s", target := "t", mode := "m", created_at := 0
                progress := [{ agent := .static }, { agent := .dependency }] }
    ctx := { scan_id := "s", target := "t", mode := "m", output_dir := "o" } }

end AegisScan

namespace AegisScan

/-- The value `DatabaseStore.load` returns for a just-saved status: all
scan columns, progress, thoughts and logs round-trip unchanged; every
finding comes back with its id rewritten to the scan-id-prefixed row id;
every voice event comes back with the scan's id in its `scan_id` field. -/
def persistedView (s : ScanStatus) : ScanStatus :=
  { s with
    findings := s.findings.map (fun f => { f with id := s.scan_id ++ "_" ++ f.id })
    voice_events := s.voice_events.map (fun v => { v with scan_id := s.scan_id }) }

/-- Fixture: a status with one finding, one log line and one thought. -/
def statusC7 : ScanStatus :=
  { scan_id := "scan1", target := "t", mode := "m", created_at := 0, progress := []
    findings := [{ id := "f1", title := "x", severity := .low, description := ""
                   remediation := "", source_agent := .static }]
    logs := ["l1"]
    thoughts := [{ agent := .adaptive, thought := "th", action_plan := "a", timestamp := 0 }] }

end AegisScan

namespace AegisScan

/-- Fixture: the live in-memory snapshot of scan `a`. -/
def statusMem : ScanStatus :=
  { scan_id := "a", target := "mem", mode := "m", created_at := 0, progress := [] }

/-- Fixture: an older persisted snapshot of the same scan `a`. -/
def statusDb : ScanStatus :=
  { scan_id := "a", target := "db", mode := "m", created_at := 1, progress := [] }

/-- Fixture: the orchestrator's `_scans` dictionary holding scan `a`. -/
def scansC10 : ScansDict := [("a", statusMem)]

/-- Fixture: a persistent store also holding scan `a`. -/
def dbC10 : ScanDatabase := dbSave [] statusDb

end AegisScan

namespace AegisScan

/-- Fixture: a json decoder that never extracts an analysis object. -/
def jsonDecC6 : String → Option Analysis := fun _ => none

/-- Fixture: an environment registering exactly the three meta agents. -/
def envC6 : OrchEnv :=
  { baseEnv with registry := fun a =>
      match a with
      | .adaptive => some (adaptiveBehavior jsonDecC6)
      | .threat => some threatBehavior
      | .report => some (reportBehavior "reports" none true)
      | _ => none }

/-- Fixture: a scan over the three meta agents with no LLM client. -/
def stC6 : OrchState :=
  { status := { scan_id := "s6", target := "t", mode := "adaptive", created_at := 0
                progress := [{ agent := .adaptive }, { agent := .threat },
                             { agent := .report }] }
    ctx := { scan_id := "s6", target := "t", mode := "adaptive", output_dir := "o" } }

end AegisScan

namespace AegisScan

/-! Field-by-field behavior of the item-routing loop. -/

theorem itemFindings_cons (it : AgentItem) (rest : List AgentItem) :
    itemFindings (it :: rest)
      = (match it with | .finding f => [f] | .thought _ => []) ++ itemFindings rest := by
  cases it <;> simp [itemFindings]

theorem itemThoughts_cons (it : AgentItem) (rest : List AgentItem) :
    itemThoughts (it :: rest)
      = (match it with | .thought t => [t] | .finding _ => []) ++ itemThoughts rest := by
  cases it <;> simp [itemThoughts]

theorem processItem_findings (env : OrchEnv) (st : OrchState) (it : AgentItem) :
    (processItem env st it).status.findings
      = st.status.findings ++ (match it with | .finding f => [f] | .thought _ => []) := by
  cases it <;> dsimp [processItem, publish, appendFindings, voiceAppend] <;> split <;> simp

theorem processItem_thoughts (env : OrchEnv) (st : OrchState) (it : AgentItem) :
    (processItem env st it).status.thoughts
      = st.status.thoughts ++ (match it with | .thought t => [t] | .finding _ => []) := by
  cases it <;> dsimp [processItem, publish, appendFindings, voiceAppend] <;> split <;> simp

theorem processItem_progress (env : OrchEnv) (st : OrchState) (it : AgentItem) :
    (processItem env st it).status.progress = st.status.progress := by
  cases it <;> dsimp [processItem, publish, appendFindings, voiceAppend] <;> split <;> rfl

theorem processItem_logs (env : OrchEnv) (st : OrchState) (it : AgentItem) :
    (processItem env st it).status.logs = st.status.logs := by
  cases it <;> dsimp [processItem, publish, appendFindings, voiceAppend] <;> split <;> rfl

theorem processItem_scan_id (env : OrchEnv) (st : OrchState) (it : AgentItem) :
    (processItem env st it).status.scan_id = st.status.scan_id := by
  cases it <;> dsimp [processItem, publish, appendFindings, voiceAppend] <;> split <;> rfl

theorem processItem_clock (env : OrchEnv) (st : OrchState) (it : AgentItem) :
    (processItem env st it).clock = st.clock := by
  cases it <;> dsimp [processItem, publish, appendFindings, voiceAppend] <;> split <;> rfl

theorem processItem_saved (env : OrchEnv) (st : OrchState) (it : AgentItem) :
    (processItem env st it).saved = st.saved := by
  cases it <;> dsimp [processItem, publish, appendFindings, voiceAppend] <;> split <;> rfl

theorem processItem_trace (env : OrchEnv) (st : OrchState) (it : AgentItem) :
    (processItem env st it).trace = st.trace := by
  cases it <;> dsimp [processItem, publish, appendFindings, voiceAppend] <;> split <;> rfl

theorem processItem_ctx (env : OrchEnv) (st : OrchState) (it : AgentItem) :
    (processItem env st it).ctx = st.ctx := by
  cases it <;> dsimp [processItem, publish, appendFindings, voiceAppend] <;> split <;> rfl

theorem processItem_published (env : OrchEnv) (st : OrchState) (it : AgentItem) :
    ∃ pubs, (processItem env st it).published = st.published ++ pubs := by
  cases it <;> dsimp [processItem, publish, appendFindings, voiceAppend] <;> split
  · exact ⟨_, rfl⟩
  · exact ⟨_, rfl⟩
  · exact ⟨[], by simp⟩
  · exact ⟨[], by simp⟩

theorem processItems_findings (env : OrchEnv) (items : List AgentItem) (st : OrchState) :
    (items.foldl (processItem env) st).status.findings
      = st.status.findings ++ itemFindings items := by
  induction items generalizing st with
  | nil => simp [itemFindings]
  | cons it rest ih =>
    rw [List.foldl_cons, ih, processItem_findings, itemFindings_cons, List.append_assoc]

theorem processItems_thoughts (env : OrchEnv) (items : List AgentItem) (st : OrchState) :
    (items.foldl (processItem env) st).status.thoughts
      = st.status.thoughts ++ itemThoughts items := by
  induction items generalizing st with
  | nil => simp [itemThoughts]
  | cons it rest ih =>
    rw [List.foldl_cons, ih, processItem_thoughts, itemThoughts_cons, List.append_assoc]

theorem processItems_progress (env : OrchEnv) (items : List AgentItem) (st : OrchState) :
    (items.foldl (processItem env) st).status.progress = st.status.progress := by
  induction items generalizing st with
  | nil => rfl
  | cons it rest ih => rw [List.foldl_cons, ih, processItem_progress]

theorem processItems_logs (env : OrchEnv) (items : List AgentItem) (st : OrchState) :
    (items.foldl (processItem env) st).status.logs = st.status.logs := by
  induction items generalizing st with
  | nil => rfl
  | cons it rest ih => rw [List.foldl_cons, ih, processItem_logs]

theorem processItems_scan_id (env : OrchEnv) (items : List AgentItem) (st : OrchState) :
    (items.foldl (processItem env) st).status.scan_id = st.status.scan_id := by
  induction items generalizing st with
  | nil => rfl
  | cons it rest ih => rw [List.foldl_cons, ih, processItem_scan_id]

theorem processItems_clock (env : OrchEnv) (items : List AgentItem) (st : OrchState) :
    (items.foldl (processItem env) st).clock = st.clock := by
  induction items generalizing st with
  | nil => rfl
  | cons it rest ih => rw [List.foldl_cons, ih, processItem_clock]

theorem processItems_saved (env : OrchEnv) (items : List AgentItem) (st : OrchState) :
    (items.foldl (processItem env) st).saved = st.saved := by
  induction items generalizing st with
  | nil => rfl
  | cons it rest ih => rw [List.foldl_cons, ih, processItem_saved]

theorem processItems_trace (env : OrchEnv) (items : List AgentItem) (st : OrchState) :
    (items.foldl (processItem env) st).trace = st.trace := by
  induction items generalizing st with
  | nil => rfl
  | cons it rest ih => rw [List.foldl_cons, ih, processItem_trace]

theorem processItems_ctx (env : OrchEnv) (items : List AgentItem) (st : OrchState) :
    (items.foldl (processItem env) st).ctx = st.ctx := by
  induction items generalizing st with
  | nil => rfl
  | cons it rest ih => rw [List.foldl_cons, ih, processItem_ctx]

theorem processItems_published (env : OrchEnv) (items : List AgentItem) (st : OrchState) :
    ∃ pubs, (items.foldl (processItem env) st).published = st.published ++ pubs := by
  induction items generalizing st with
  | nil => exact ⟨[], by simp⟩
  | cons it rest ih =>
    rw [List.foldl_cons]
    obtain ⟨p1, hp1⟩ := processItem_published env st it
    obtain ⟨p2, hp2⟩ := ih (processItem env st it)
    exact ⟨p1 ++ p2, by rw [hp2, hp1, List.append_assoc]⟩

end AegisScan


namespace AegisScan

/-! Behavior of one iteration of the agent loop. -/

theorem stepAgent_out_of_range (env : OrchEnv) (ws turl : Option String)
    (st : OrchState) (i : Nat) (he : st.status.progress[i]? = none) :
    stepAgent env ws turl st i = st := by
  simp only [stepAgent, he]

theorem stepAgent_unregistered (env : OrchEnv) (ws turl : Option String)
    (st : OrchState) (i : Nat) (entry : AgentProgress)
    (he : st.status.progress[i]? = some entry)
    (ha : env.registry entry.agent = none) :
    stepAgent env ws turl st i = setProgress st i { entry with status := .skipped } := by
  simp only [stepAgent, he, ha]

end AegisScan

namespace AegisScan

/-! Behavior of one iteration of the agent loop. -/

theorem voiceIf_status_findings (c : Prop) [Decidable c] (s : OrchState) (e : VoiceEvent) :
    (if c then voiceAppend s e else s).status.findings = s.status.findings := by
  split <;> simp [voiceAppend]

theorem voiceIf_status_progress (c : Prop) [Decidable c] (s : OrchState) (e : VoiceEvent) :
    (if c then voiceAppend s e else s).status.progress = s.status.progress := by
  split <;> simp [voiceAppend]

theorem voiceIf_status_thoughts (c : Prop) [Decidable c] (s : OrchState) (e : VoiceEvent) :
    (if c then voiceAppend s e else s).status.thoughts = s.status.thoughts := by
  split <;> simp [voiceAppend]

theorem voiceIf_status_logs (c : Prop) [Decidable c] (s : OrchState) (e : VoiceEvent) :
    (if c then voiceAppend s e else s).status.logs = s.status.logs := by
  split <;> simp [voiceAppend]

theorem voiceIf_status_scan_id (c : Prop) [Decidable c] (s : OrchState) (e : VoiceEvent) :
    (if c then voiceAppend s e else s).status.scan_id = s.status.scan_id := by
  split <;> simp [voiceAppend]

theorem voiceIf_trace (c : Prop) [Decidable c] (s : OrchState) (e : VoiceEvent) :
    (if c then voiceAppend s e else s).trace = s.trace := by
  split <;> simp [voiceAppend]

theorem voiceIf_clock (c : Prop) [Decidable c] (s : OrchState) (e : VoiceEvent) :
    (if c then voiceAppend s e else s).clock = s.clock := by
  split <;> simp [voiceAppend]

theorem voiceIf_saved (c : Prop) [Decidable c] (s : OrchState) (e : VoiceEvent) :
    (if c then voiceAppend s e else s).saved = s.saved := by
  split <;> simp [voiceAppend]

theorem voiceIf_published (c : Prop) [Decidable c] (s : OrchState) (e : VoiceEvent) :
    (if c then voiceAppend s e else s).published = s.published := by
  split <;> simp [voiceAppend]

theorem voiceIf_ctx (c : Prop) [Decidable c] (s : OrchState) (e : VoiceEvent) :
    (if c then voiceAppend s e else s).ctx = s.ctx := by
  split <;> simp [voiceAppend]

theorem processItem_published_eq (env : OrchEnv) (st : OrchState) (it : AgentItem) :
    (processItem env st it).published = st.published ++ processItemPubs st it := by
  cases it <;> dsimp [processItem, publish, appendFindings, voiceAppend, processItemPubs] <;>
    split <;> simp

theorem processItems_published_eq (env : OrchEnv) (items : List AgentItem) (st : OrchState) :
    (items.foldl (processItem env) st).published
      = st.published ++ processItemsPubs env st items := by
  induction items generalizing st with
  | nil => simp [processItemsPubs]
  | cons it rest ih =>
    rw [List.foldl_cons, ih, processItem_published_eq, processItemsPubs,
      List.append_assoc]

theorem stepAgent_registered_spec (env : OrchEnv) (ws turl : Option String)
    (st post : OrchState) (i : Nat) (entry : AgentProgress) (agent : AgentBehavior)
    (shape : RunShape AgentItem) (err : Option String) (ctx' : AgentContext)
    (he : st.status.progress[i]? = some entry)
    (ha : env.registry entry.agent = some agent)
    (hctx : ctx' = { resolveCtxTarget ws turl entry.agent st.ctx with
                     previous_findings := st.status.findings })
    (hrun : agent.run ctx' = (shape, err))
    (hpost : post = stepAgent env ws turl st i) :
    post.trace = st.trace
        ++ [⟨entry.agent, st.status.findings, streamAgentOutputs shape, err⟩] ∧
    post.status.findings = st.status.findings ++ itemFindings (streamAgentOutputs shape) ∧
    post.status.progress = st.status.progress.set i
        (terminalProgress entry.agent agent.displayName st.clock (st.clock + 1) err) ∧
    post.status.thoughts = st.status.thoughts ++ itemThoughts (streamAgentOutputs shape) ∧
    post.status.logs = st.status.logs
        ++ [messageOrFinished
              (terminalProgress entry.agent agent.displayName st.clock (st.clock + 1) err).message
              agent.displayName] ∧
    post.saved = st.saved ++ [post.status] ∧
    post.clock = st.clock + 2 ∧
    post.ctx = ctx' ∧
    post.status.scan_id = st.status.scan_id ∧
    (∃ pubs, post.published = st.published ++ pubs) ∧
    post.status ∈ post.published := by
  subst hctx hpost
  dsimp only at hrun
  simp only [stepAgent, he, ha]
  simp only [publish, saveSnapshot, appendLog, setProgress, voiceIf_ctx,
    voiceIf_status_findings]
  rw [hrun]
  cases err with
  | none =>
    refine ⟨?_, ?_, ?_, ?_, ?_, ?_, ?_, ?_, ?_, ?_, ?_⟩ <;>
      first
      | (simp only [publish, saveSnapshot, appendLog, setProgress,
          processItems_published_eq, voiceIf_published, List.append_assoc]
         exact ⟨_, rfl⟩)
      |
      simp [publish, saveSnapshot, appendLog, setProgress, terminalProgress,
        messageOrFinished, processItems_trace, processItems_findings,
        processItems_thoughts, processItems_progress, processItems_logs,
        processItems_scan_id, processItems_clock, processItems_saved,
        processItems_ctx, processItems_published_eq,
        voiceIf_status_findings, voiceIf_status_progress,
        voiceIf_status_thoughts, voiceIf_status_logs, voiceIf_status_scan_id,
        voiceIf_trace, voiceIf_clock, voiceIf_saved, voiceIf_published, voiceIf_ctx]
  | some m =>
    refine ⟨?_, ?_, ?_, ?_, ?_, ?_, ?_, ?_, ?_, ?_, ?_⟩ <;>
      first
      | (simp only [publish, saveSnapshot, appendLog, setProgress,
          processItems_published_eq, voiceIf_published, List.append_assoc]
         exact ⟨_, rfl⟩)
      |
      simp [publish, saveSnapshot, appendLog, setProgress, terminalProgress,
        messageOrFinished, processItems_trace, processItems_findings,
        processItems_thoughts, processItems_progress, processItems_logs,
        processItems_scan_id, processItems_clock, processItems_saved,
        processItems_ctx, processItems_published_eq,
        voiceIf_status_findings, voiceIf_status_progress,
        voiceIf_status_thoughts, voiceIf_status_logs, voiceIf_status_scan_id,
        voiceIf_trace, voiceIf_clock, voiceIf_saved, voiceIf_published, voiceIf_ctx]


end AegisScan

namespace AegisScan

/-! The agent-loop invariant: every entry is visited in order; each
registered agent is invoked once with the findings accumulated so far and
leaves a terminal progress entry. -/

theorem runAgentsAux_spec (env : OrchEnv) (ws turl : Option String) :
    ∀ (n i : Nat) (st : OrchState),
    i + n = st.status.progress.length →
    (∀ j (hj : j < st.status.progress.length), i ≤ j →
        (env.registry (st.status.progress.get ⟨j, hj⟩).agent).isSome) →
    ∃ tnew : List TraceEntry,
      (runAgentsAux env ws turl n i st).trace = st.trace ++ tnew ∧
      tnew.length = n ∧
      (runAgentsAux env ws turl n i st).status.findings
        = st.status.findings ++ tnew.flatMap (fun t => itemFindings t.items) ∧
      (runAgentsAux env ws turl n i st).status.progress.length
        = st.status.progress.length ∧
      (∀ j, j < i →
        (runAgentsAux env ws turl n i st).status.progress[j]?
          = st.status.progress[j]?) ∧
      (∀ k, k < n →
        ∃ t entry dn c,
          tnew[k]? = some t ∧
          st.status.progress[i + k]? = some entry ∧
          t.agent = entry.agent ∧
          t.prev = st.status.findings
            ++ (tnew.take k).flatMap (fun u => itemFindings u.items) ∧
          (runAgentsAux env ws turl n i st).status.progress[i + k]?
            = some (terminalProgress entry.agent dn c (c + 1) t.err)) := by
  intro n
  induction n with
  | zero =>
    intro i st hlen hreg
    refine ⟨[], ?_, ?_, ?_, ?_, ?_, ?_⟩ <;> simp [runAgentsAux]
  | succ n ih =>
    intro i st hlen hreg
    have hi : i < st.status.progress.length := by omega
    have he : st.status.progress[i]? = some (st.status.progress.get ⟨i, hi⟩) := by
      simp [List.getElem?_eq_getElem hi]
    obtain ⟨agent, ha⟩ :
        ∃ a, env.registry (st.status.progress.get ⟨i, hi⟩).agent = some a := by
      have := hreg i hi (le_refl i)
      exact Option.isSome_iff_exists.mp this
    set entry := st.status.progress.get ⟨i, hi⟩ with hentry
    set ctx' : AgentContext :=
      { resolveCtxTarget ws turl entry.agent st.ctx with
        previous_findings := st.status.findings } with hctx
    obtain ⟨htrace, hfind, hprog, hthoughts, hlogs, hsaved, hclock, hctxeq, hsid,
        hpubpre, hpubmem⟩ :=
      stepAgent_registered_spec env ws turl st (stepAgent env ws turl st i) i entry agent
        (agent.run ctx').1 (agent.run ctx').2 ctx' he ha hctx rfl rfl
    set st1 := stepAgent env ws turl st i with hst1
    have hlen1 : st1.status.progress.length = st.status.progress.length := by
      rw [hprog]; simp
    have hrest : ∀ j, j ≠ i → st1.status.progress[j]? = st.status.progress[j]? := by
      intro j hj
      rw [hprog]
      exact List.getElem?_set_ne (by omega)
    have hme : st1.status.progress[i]?
        = some (terminalProgress entry.agent agent.displayName st.clock (st.clock + 1)
            (agent.run ctx').2) := by
      rw [hprog]
      simp [List.getElem?_set_self, hi]
    have hlen' : (i + 1) + n = st1.status.progress.length := by omega
    have hreg' : ∀ j (hj : j < st1.status.progress.length), i + 1 ≤ j →
        (env.registry (st1.status.progress.get ⟨j, hj⟩).agent).isSome := by
      intro j hj hij
      have hjlt : j < st.status.progress.length := by omega
      have : st1.status.progress[j]? = st.status.progress[j]? :=
        hrest j (by omega)
      have hget : st1.status.progress.get ⟨j, hj⟩ = st.status.progress.get ⟨j, hjlt⟩ := by
        have h1 : st1.status.progress[j]?
            = some (st1.status.progress.get ⟨j, hj⟩) := by
          simp [List.getElem?_eq_getElem hj]
        have h2 : st.status.progress[j]?
            = some (st.status.progress.get ⟨j, hjlt⟩) := by
          simp [List.getElem?_eq_getElem hjlt]
        rw [h1, h2] at this
        exact Option.some.inj this
      rw [hget]
      exact hreg j hjlt (by omega)
    obtain ⟨tnewIH, ih1, ih2, ih3, ih4, ih5, ih6⟩ := ih (i + 1) st1 hlen' hreg'
    set one : TraceEntry :=
      ⟨entry.agent, st.status.findings, streamAgentOutputs (agent.run ctx').1,
        (agent.run ctx').2⟩ with hone
    refine ⟨one :: tnewIH, ?_, ?_, ?_, ?_, ?_, ?_⟩
    · rw [show runAgentsAux env ws turl (n + 1) i st
          = runAgentsAux env ws turl n (i + 1) st1 from rfl]
      rw [ih1, htrace]
      simp
    · simp [ih2]
    · rw [show runAgentsAux env ws turl (n + 1) i st
          = runAgentsAux env ws turl n (i + 1) st1 from rfl]
      rw [ih3, hfind]
      simp
    · rw [show runAgentsAux env ws turl (n + 1) i st
          = runAgentsAux env ws turl n (i + 1) st1 from rfl]
      rw [ih4, hlen1]
    · intro j hj
      rw [show runAgentsAux env ws turl (n + 1) i st
          = runAgentsAux env ws turl n (i + 1) st1 from rfl]
      rw [ih5 j (by omega), hrest j (by omega)]
    · intro k hk
      rw [show runAgentsAux env ws turl (n + 1) i st
          = runAgentsAux env ws turl n (i + 1) st1 from rfl]
      cases k with
      | zero =>
        refine ⟨one, entry, agent.displayName, st.clock, ?_, ?_, ?_, ?_, ?_⟩
        · simp
        · simpa using he
        · rfl
        · simp [hone]
        · have h5 := ih5 i (Nat.lt_succ_self i)
          simp only [Nat.add_zero]
          rw [h5]
          exact hme
      | succ k' =>
        obtain ⟨t, entry', dn, c, j1, j2, j3, j4, j5⟩ := ih6 k' (by omega)
        refine ⟨t, entry', dn, c, ?_, ?_, j3, ?_, ?_⟩
        · simpa using j1
        · have : st.status.progress[(i + 1) + k']? = st1.status.progress[(i + 1) + k']? :=
            (hrest ((i + 1) + k') (by omega)).symm
          rw [show i + (k' + 1) = (i + 1) + k' from by omega, this]
          exact j2
        · rw [j4, hfind]
          simp [hone, List.append_assoc]
        · rw [show i + (k' + 1) = (i + 1) + k' from by omega]
          exact j5


end AegisScan

namespace AegisScan

theorem parseSemgrepAux_length (idx : Nat) (l : List SemgrepResult) :
    (parseSemgrepAux idx l).length = l.length := by
  induction l generalizing idx with
  | nil => rfl
  | cons r rest ih => simp [parseSemgrepAux, ih]

theorem parseSemgrepAux_getElem (idx : Nat) (l : List SemgrepResult) (i : Nat)
    (h : i < l.length) :
    (parseSemgrepAux idx l)[i]? = some (mkSemgrepFinding (idx + i) (l.get ⟨i, h⟩)) := by
  induction l generalizing idx i with
  | nil => simp at h
  | cons r rest ih =>
    cases i with
    | zero => simp [parseSemgrepAux]
    | succ i' =>
      have h' : i' < rest.length := by simpa using h
      simp only [parseSemgrepAux, List.getElem?_cons_succ]
      rw [ih (idx + 1) i' h']
      congr 2
      omega

/-- C9: every semgrep result is mapped to exactly one canonical severity
by the total map `mapSemgrepSeverity`; a result whose (upper-cased) native
severity label matches no `SEVERITY_MAP` key yields a finding with
severity `LOW` rather than an error, and parsing always yields one finding
per result. -/
theorem semgrep_severity_total_low_default (raw : SemgrepRaw)
    (results : List SemgrepResult) (i : Nat) (label : String)
    (hres : raw.results = some results)
    (h : i < results.length)
    (hlab : (results.get ⟨i, h⟩).extra_severity = some label)
    (hunrec : SEVERITY_MAP.find? (fun p => p.1 = pyUpper label) = none) :
    (parse_semgrep_output raw).length = results.length ∧
    (parse_semgrep_output raw)[i]?
      = some (mkSemgrepFinding (1 + i) (results.get ⟨i, h⟩)) ∧
    ((parse_semgrep_output raw)[i]?.map (fun f => f.severity))
      = some FindingSeverity.low := by
  have hlen : (parse_semgrep_output raw).length = results.length := by
    simp [parse_semgrep_output, hres, parseSemgrepAux_length]
  have hget : (parse_semgrep_output raw)[i]?
      = some (mkSemgrepFinding (1 + i) (results.get ⟨i, h⟩)) := by
    simp only [parse_semgrep_output, hres, Option.getD_some]
    exact parseSemgrepAux_getElem 1 results i h
  refine ⟨hlen, hget, ?_⟩
  have hlab' : results[i].extra_severity = some label := by
    simpa [List.get_eq_getElem] using hlab
  simp [hget, mkSemgrepFinding, hlab', mapSemgrepSeverity, hunrec]

/-- C8: an agent that yields a sequence of non-null items through an
async generator and an agent that returns the same items as one batch
(list/tuple) normalize, through `_stream_agent_outputs`, to exactly the
same items in the same order. -/
theorem dual_result_shape_equivalence (items : List AgentItem) :
    streamAgentOutputs (RunShape.gen (items.map some))
      = streamAgentOutputs (RunShape.coroBatch (items.map some)) ∧
    streamAgentOutputs (RunShape.gen (items.map some)) = items := by
  constructor <;> simp [streamAgentOutputs, List.filterMap_map]


/-- Witness for C9 at a concrete unrecognized label. -/
theorem semgrep_severity_total_low_default_witness :
    SEVERITY_MAP.find? (fun p => p.1 = pyUpper "weird") = none ∧
    ((parse_semgrep_output semgrepRawC9)[0]?.map (fun f => f.severity))
      = some FindingSeverity.low :=
  ⟨by decide,
   (semgrep_severity_total_low_default semgrepRawC9 [semgrepResultC9] 0 "weird" rfl
      (by decide) rfl (by decide)).2.2⟩

end AegisScan

namespace AegisScan

theorem itemFindings_stream_coroBatch (fs : List Finding) :
    itemFindings (streamAgentOutputs
      (RunShape.coroBatch (fs.map (fun f => some (AgentItem.finding f))))) = fs := by
  induction fs with
  | nil => rfl
  | cons f rest ih =>
    simpa [streamAgentOutputs, itemFindings] using ih

/-- C5: a secret-agent run in which the gitleaks process exits with code 1
and valid JSON on stdout completes normally with the findings parsed from
that stdout — the launcher's structured error carries the full captured
result, so the stdout is recoverable — and the orchestrator marks the
agent `COMPLETED`, appending exactly those findings; any other non-zero
exit code is re-raised and fails the agent run. -/
theorem secret_agent_exit_one_completes
    (jsonDec : String → Except String (List GitleaksEntry))
    (target : String) (r rOther : ToolCommandResult) (payload : List GitleaksEntry)
    (h1 : r.exit_code = 1)
    (h2 : gitleaksLoads jsonDec r.stdout = .ok payload)
    (h3 : rOther.exit_code ≠ 0) (h4 : rOther.exit_code ≠ 1) :
    toolLauncherRun false r = .error ⟨r⟩ ∧
    secretAgentRun jsonDec true target (toolLauncherRun false r)
      = .ok (parse_gitleaks_output payload) ∧
    (∀ (env : OrchEnv) (ws turl : Option String) (st : OrchState) (i : Nat)
        (entry : AgentProgress),
      st.status.progress[i]? = some entry →
      env.registry entry.agent = some
        ⟨"Secret Leakage Scanner",
         fun _ => invocationOfCoroResult
           (secretAgentRun jsonDec true target (toolLauncherRun false r))⟩ →
      ∃ p, (stepAgent env ws turl st i).status.progress[i]? = some p ∧
        p.status = .completed ∧
        (stepAgent env ws turl st i).status.findings
          = st.status.findings ++ parse_gitleaks_output payload) ∧
    (∃ msg, secretAgentRun jsonDec true target (toolLauncherRun false rOther)
        = .error msg) := by
  have hlaunch : toolLauncherRun false r = .error ⟨r⟩ := by
    simp [toolLauncherRun]
    intro hc
    rw [hc] at h1
    exact absurd h1 (by decide)
  have hrun : secretAgentRun jsonDec true target (toolLauncherRun false r)
      = .ok (parse_gitleaks_output payload) := by
    rw [hlaunch]
    simp [secretAgentRun, h1, h2]
  refine ⟨hlaunch, hrun, ?_, ?_⟩
  · intro env ws turl st i entry he ha
    have hi : i < st.status.progress.length := by
      by_contra hcon
      rw [List.getElem?_eq_none (by omega)] at he
      exact Option.noConfusion he
    obtain ⟨_, hfind, hprog, _, _, _, _, _, _, _, _⟩ :=
      stepAgent_registered_spec env ws turl st (stepAgent env ws turl st i) i entry
        ⟨"Secret Leakage Scanner",
         fun _ => invocationOfCoroResult
           (secretAgentRun jsonDec true target (toolLauncherRun false r))⟩
        (RunShape.coroBatch
          ((parse_gitleaks_output payload).map (fun f => some (AgentItem.finding f))))
        none _ he ha rfl (by rw [hrun]; rfl) rfl
    refine ⟨terminalProgress entry.agent "Secret Leakage Scanner" st.clock (st.clock + 1)
        none, ?_, rfl, ?_⟩
    · rw [hprog]
      simp [List.getElem?_set_self, hi]
    · rw [hfind, itemFindings_stream_coroBatch]
  · rw [show toolLauncherRun false rOther = .error ⟨rOther⟩ from by
      simp [toolLauncherRun]
      intro hc
      exact absurd hc h3]
    simp [secretAgentRun, h4]

theorem secret_agent_exit_one_completes_witness :
    toolResultExit1.exit_code = 1 ∧
    gitleaksLoads jsonDecC5 toolResultExit1.stdout = .ok [gitleaksEntryC5] ∧
    toolResultExit2.exit_code ≠ 0 ∧ toolResultExit2.exit_code ≠ 1 ∧
    secretAgentRun jsonDecC5 true "/workspace" (toolLauncherRun false toolResultExit1)
      = .ok (parse_gitleaks_output [gitleaksEntryC5]) :=
  ⟨rfl, by simp [gitleaksLoads, jsonDecC5, toolResultExit1], by decide, by decide,
   (secret_agent_exit_one_completes jsonDecC5 "/workspace" toolResultExit1
      toolResultExit2 [gitleaksEntryC5] rfl
      (by simp [gitleaksLoads, jsonDecC5, toolResultExit1]) (by decide) (by decide)).2.1⟩


end AegisScan

namespace AegisScan

/-- C4 (amended): reaching COMPLETED on normal return or FAILED on a
raised error always sets the agent's `ended_at`, sets `percent_complete`
to 100, appends a log line, persists the whole scan snapshot and
publishes it; a SKIPPED slot (no registered implementation) only has its
status set — the `continue` bypasses the try/finally, so no timestamp,
log line, persistence or publish happens for it. -/
theorem terminal_transition_bookkeeping (env : OrchEnv) (ws turl : Option String)
    (st : OrchState) (i : Nat) (entry : AgentProgress)
    (he : st.status.progress[i]? = some entry) :
    (∀ agent : AgentBehavior, env.registry entry.agent = some agent →
      ∃ p, (stepAgent env ws turl st i).status.progress[i]? = some p ∧
        (p.status = .completed ∨ p.status = .failed) ∧
        p.ended_at.isSome ∧
        p.percent_complete = 100 ∧
        (stepAgent env ws turl st i).status.logs.length
          = st.status.logs.length + 1 ∧
        (stepAgent env ws turl st i).saved
          = st.saved ++ [(stepAgent env ws turl st i).status] ∧
        (stepAgent env ws turl st i).status ∈ (stepAgent env ws turl st i).published) ∧
    (env.registry entry.agent = none →
      stepAgent env ws turl st i = setProgress st i { entry with status := .skipped }) := by
  constructor
  · intro agent ha
    have hi : i < st.status.progress.length := by
      by_contra hcon
      rw [List.getElem?_eq_none (by omega)] at he
      exact Option.noConfusion he
    set ctx' : AgentContext :=
      { resolveCtxTarget ws turl entry.agent st.ctx with
        previous_findings := st.status.findings } with hctx
    obtain ⟨_, _, hprog, _, hlogs, hsaved, _, _, _, _, hpub⟩ :=
      stepAgent_registered_spec env ws turl st (stepAgent env ws turl st i) i entry agent
        (agent.run ctx').1 (agent.run ctx').2 ctx' he ha hctx rfl rfl
    refine ⟨terminalProgress entry.agent agent.displayName st.clock (st.clock + 1)
        (agent.run ctx').2, ?_, ?_, ?_, ?_, ?_, hsaved, hpub⟩
    · rw [hprog]
      simp [List.getElem?_set_self, hi]
    · cases hres : (agent.run ctx').2 <;> simp [terminalProgress, hres]
    · simp [terminalProgress]
    · simp [terminalProgress]
    · rw [hlogs]
      simp
  · intro ha
    exact stepAgent_unregistered env ws turl st i entry he ha

/-- C4 counterexample: with no implementation registered, the entry ends
SKIPPED but `ended_at` is unset, `percent_complete` stays 0, and no log
line, persisted snapshot or published event is produced — refuting the
claim's `regardless of which of the three outcomes occurred`. -/
theorem terminal_transition_skipped_counterexample :
    ((stepAgent baseEnv none none stC4 0).status.progress[0]?.map
        (fun p => p.status)) = some .skipped ∧
    ((stepAgent baseEnv none none stC4 0).status.progress[0]?.map
        (fun p => p.ended_at)) = some none ∧
    ((stepAgent baseEnv none none stC4 0).status.progress[0]?.map
        (fun p => p.percent_complete)) = some 0 ∧
    (stepAgent baseEnv none none stC4 0).status.logs = [] ∧
    (stepAgent baseEnv none none stC4 0).saved = [] ∧
    (stepAgent baseEnv none none stC4 0).published = [] := by
  decide

/-- Witness for C4 (amended) at a concrete registered noop agent. -/
theorem terminal_transition_bookkeeping_witness :
    stC4.status.progress[0]? = some { agent := .static } ∧
    (∃ p, (stepAgent envC4 none none stC4 0).status.progress[0]? = some p ∧
        (p.status = .completed ∨ p.status = .failed) ∧
        p.ended_at.isSome ∧
        p.percent_complete = 100 ∧
        (stepAgent envC4 none none stC4 0).status.logs.length
          = stC4.status.logs.length + 1 ∧
        (stepAgent envC4 none none stC4 0).saved
          = stC4.saved ++ [(stepAgent envC4 none none stC4 0).status] ∧
        (stepAgent envC4 none none stC4 0).status
          ∈ (stepAgent envC4 none none stC4 0).published) :=
  ⟨by decide,
   (terminal_transition_bookkeeping envC4 none none stC4 0 { agent := .static }
      (by decide)).1 noopBehavior rfl⟩


end AegisScan

namespace AegisScan

/-- C3 (amended): when the request names a remote repository and the
clone fails, the error is logged and published, every enabled agent's
progress is then set to FAILED with message `Repository clone failed`,
the run ends without invoking any agent, and nothing further is
persisted — but the FAILED-marked state itself is never published: the
two snapshots published on this path still carry the pre-failure
progress entries, because `_publish` runs before the loop that marks the
agents failed. -/
theorem clone_failure_fatal (env : OrchEnv) (request : ScanRequest) (st0 : OrchState)
    (url e : String)
    (hurl : request.github_url = some url)
    (hclone : env.cloneOutcome = .error e) :
    (∀ p ∈ (runScan env request st0).status.progress,
        p.status = .failed ∧ p.message = some "Repository clone failed") ∧
    (runScan env request st0).trace = st0.trace ∧
    (runScan env request st0).saved = st0.saved ∧
    (runScan env request st0).published = st0.published ++
      [{ st0.status with logs := st0.status.logs
            ++ ["Cloning repository: " ++ url ++ " (branch: "
                  ++ request.github_branch ++ ")"] },
       { st0.status with logs := st0.status.logs
            ++ ["Cloning repository: " ++ url ++ " (branch: "
                  ++ request.github_branch ++ ")",
                "Failed to clone repository: " ++ e] }] ∧
    (∀ s ∈ (runScan env request st0).published.drop st0.published.length,
        s.progress = st0.status.progress) := by
  have hpub : (runScan env request st0).published = st0.published ++
      [{ st0.status with logs := st0.status.logs
            ++ ["Cloning repository: " ++ url ++ " (branch: "
                  ++ request.github_branch ++ ")"] },
       { st0.status with logs := st0.status.logs
            ++ ["Cloning repository: " ++ url ++ " (branch: "
                  ++ request.github_branch ++ ")",
                "Failed to clone repository: " ++ e] }] := by
    simp only [runScan, hurl, hclone, appendLog, publish, markAllFailed]
    simp
  refine ⟨?_, ?_, ?_, hpub, ?_⟩
  · simp only [runScan, hurl, hclone, appendLog, publish, markAllFailed]
    intro p hp
    simp only [List.mem_map] at hp
    obtain ⟨q, _, hq⟩ := hp
    rw [← hq]
    simp
  · simp only [runScan, hurl, hclone, appendLog, publish, markAllFailed]
  · simp only [runScan, hurl, hclone, appendLog, publish, markAllFailed]
  · intro s hs
    rw [hpub, List.drop_left] at hs
    simp only [List.mem_cons, List.not_mem_nil, or_false] at hs
    rcases hs with h | h <;> rw [h]


/-- C3 counterexample: on a concrete clone failure the final state has
every agent FAILED, yet each published snapshot still shows the agent
PENDING and nothing was persisted — refuting the claim's `that state is
published to observers`. -/
theorem clone_failure_publish_counterexample :
    ((runScan envC3 requestC3 stC4).status.progress.map (fun p => p.status))
      = [.failed] ∧
    ((runScan envC3 requestC3 stC4).published.map
        (fun s => s.progress.map (fun p => p.status)))
      = [[.pending], [.pending]] ∧
    (runScan envC3 requestC3 stC4).saved = [] := by
  decide

/-- Witness for C3 (amended) at a concrete clone failure. -/
theorem clone_failure_fatal_witness :
    requestC3.github_url = some "https://github.com/u/r" ∧
    envC3.cloneOutcome = .error "exit 128" ∧
    ((∀ p ∈ (runScan envC3 requestC3 stC4).status.progress,
        p.status = .failed ∧ p.message = some "Repository clone failed") ∧
      (runScan envC3 requestC3 stC4).trace = stC4.trace) :=
  ⟨rfl, rfl,
   ⟨(clone_failure_fatal envC3 requestC3 stC4 "https://github.com/u/r" "exit 128"
       rfl rfl).1,
    (clone_failure_fatal envC3 requestC3 stC4 "https://github.com/u/r" "exit 128"
       rfl rfl).2.1⟩⟩


end AegisScan

namespace AegisScan

/-- C1: in a run whose enabled agents are all registered, if the agent
at position K raises (its trace entry records an exception) and every
other agent returns normally, then every agent - including those after
K - is still invoked in order, all findings produced across the run
(including those of agents after K) appear in the final findings list,
and only position K ends `FAILED`, with the exception's message recorded
as its progress message; every other position ends `COMPLETED`. -/
theorem failure_isolation (env : OrchEnv) (ws turl : Option String)
    (st0 : OrchState) (K : Nat) (m : String)
    (hreg : ∀ j (hj : j < st0.status.progress.length),
        (env.registry (st0.status.progress.get ⟨j, hj⟩).agent).isSome)
    (htr0 : st0.trace = [])
    (hK : K < st0.status.progress.length)
    (hKerr : ((runAgents env ws turl st0).trace[K]?).map TraceEntry.err
        = some (some m))
    (hothers : ∀ j, j < st0.status.progress.length → j ≠ K →
        ((runAgents env ws turl st0).trace[j]?).map TraceEntry.err = some none) :
    (runAgents env ws turl st0).trace.length = st0.status.progress.length ∧
    (∀ j, j < st0.status.progress.length →
        ((runAgents env ws turl st0).trace[j]?).map TraceEntry.agent
          = (st0.status.progress[j]?).map AgentProgress.agent) ∧
    (runAgents env ws turl st0).status.findings
      = st0.status.findings
        ++ (runAgents env ws turl st0).trace.flatMap (fun t => itemFindings t.items) ∧
    (∀ j, j < st0.status.progress.length →
        ((runAgents env ws turl st0).status.progress[j]?).map AgentProgress.status
          = some (if j = K then .failed else .completed)) ∧
    ((runAgents env ws turl st0).status.progress[K]?).map AgentProgress.message
      = some (some m) := by
  obtain ⟨tnew, h1, h2, h3, h4, h5, h6⟩ :=
    runAgentsAux_spec env ws turl st0.status.progress.length 0 st0 (by omega)
      (fun j hj _ => hreg j hj)
  have hrn : runAgents env ws turl st0
      = runAgentsAux env ws turl st0.status.progress.length 0 st0 := rfl
  have htr : (runAgents env ws turl st0).trace = tnew := by
    rw [hrn, h1, htr0]
    simp
  have hper : ∀ j, j < st0.status.progress.length →
      ∃ t entry dn c,
        tnew[j]? = some t ∧
        st0.status.progress[j]? = some entry ∧
        t.agent = entry.agent ∧
        (runAgents env ws turl st0).status.progress[j]?
          = some (terminalProgress entry.agent dn c (c + 1) t.err) := by
    intro j hj
    obtain ⟨t, entry, dn, c, k1, k2, k3, _, k5⟩ := h6 j hj
    refine ⟨t, entry, dn, c, k1, ?_, k3, ?_⟩
    · simpa using k2
    · rw [hrn]
      simpa using k5
  refine ⟨?_, ?_, ?_, ?_, ?_⟩
  · rw [htr, h2]
  · intro j hj
    obtain ⟨t, entry, dn, c, k1, k2, k3, _⟩ := hper j hj
    rw [htr, k1, k2]
    simp only [Option.map_some']
    exact congrArg some k3
  · rw [htr, hrn, h3]
  · intro j hj
    obtain ⟨t, entry, dn, c, k1, k2, k3, k4⟩ := hper j hj
    rw [k4]
    by_cases hjK : j = K
    · subst hjK
      have : ((runAgents env ws turl st0).trace[j]?).map TraceEntry.err
          = some (some m) := hKerr
      rw [htr, k1] at this
      simp at this
      simp [terminalProgress, this]
    · have := hothers j hj hjK
      rw [htr, k1] at this
      simp at this
      simp [terminalProgress, this, hjK]
  · obtain ⟨t, entry, dn, c, k1, k2, k3, k4⟩ := hper K hK
    have : ((runAgents env ws turl st0).trace[K]?).map TraceEntry.err
        = some (some m) := hKerr
    rw [htr, k1] at this
    simp at this
    rw [k4]
    simp [terminalProgress, this]

/-- Witness for C1: two agents, the first raising `boom`. -/
theorem failure_isolation_witness :
    (((runAgents envC1 none none stC1).trace[0]?).map TraceEntry.err
        = some (some "boom")) ∧
    ((runAgents envC1 none none stC1).trace.length = stC1.status.progress.length ∧
     (∀ j, j < stC1.status.progress.length →
        ((runAgents envC1 none none stC1).trace[j]?).map TraceEntry.agent
          = (stC1.status.progress[j]?).map AgentProgress.agent) ∧
     (runAgents envC1 none none stC1).status.findings
       = stC1.status.findings
         ++ (runAgents envC1 none none stC1).trace.flatMap
              (fun t => itemFindings t.items) ∧
     (∀ j, j < stC1.status.progress.length →
        ((runAgents envC1 none none stC1).status.progress[j]?).map
            AgentProgress.status
          = some (if j = 0 then .failed else .completed)) ∧
     ((runAgents envC1 none none stC1).status.progress[0]?).map
         AgentProgress.message
       = some (some "boom")) :=
  ⟨by decide,
   failure_isolation envC1 none none stC1 0 "boom" (by decide) rfl (by decide)
     (by decide) (by decide)⟩

/-- C2: for every agent invocation K of a run that starts with an empty
findings list, the `previous_findings` snapshot handed to that agent
equals the concatenation, in execution order, of the findings produced
by the invocations before K - hence it contains none of agent K's own
yields nor any later agent's yields. -/
theorem accumulation_ordering (env : OrchEnv) (ws turl : Option String)
    (st0 : OrchState)
    (hreg : ∀ j (hj : j < st0.status.progress.length),
        (env.registry (st0.status.progress.get ⟨j, hj⟩).agent).isSome)
    (htr0 : st0.trace = [])
    (hfind0 : st0.status.findings = []) :
    ∀ K t, (runAgents env ws turl st0).trace[K]? = some t →
      t.prev = ((runAgents env ws turl st0).trace.take K).flatMap
        (fun u => itemFindings u.items) := by
  obtain ⟨tnew, h1, h2, h3, h4, h5, h6⟩ :=
    runAgentsAux_spec env ws turl st0.status.progress.length 0 st0 (by omega)
      (fun j hj _ => hreg j hj)
  have htr : (runAgents env ws turl st0).trace = tnew := by
    rw [show runAgents env ws turl st0
        = runAgentsAux env ws turl st0.status.progress.length 0 st0 from rfl, h1, htr0]
    simp
  intro K t hK
  rw [htr] at hK
  have hKlt : K < tnew.length := by
    by_contra hcon
    rw [List.getElem?_eq_none (by omega)] at hK
    exact Option.noConfusion hK
  obtain ⟨t', entry, dn, c, k1, k2, k3, k4, k5⟩ := h6 K (by omega)
  have htt : t = t' := by
    rw [hK] at k1
    exact Option.some.inj k1
  rw [htr, htt, k4, hfind0]
  simp

/-- Witness for C2 on the two-agent fixture run. -/
theorem accumulation_ordering_witness :
    stC1.trace = [] ∧ stC1.status.findings = [] ∧
    (∀ K t, (runAgents envC1 none none stC1).trace[K]? = some t →
      t.prev = ((runAgents envC1 none none stC1).trace.take K).flatMap
        (fun u => itemFindings u.items)) :=
  ⟨rfl, rfl, accumulation_ordering envC1 none none stC1 (by decide) rfl rfl⟩


end AegisScan

namespace AegisScan

theorem listMapM_map_of_inverse {α β γ : Type} (g : α → β) (h : β → Option γ)
    (k : α → γ) (H : ∀ x, h (g x) = some (k x)) :
    ∀ l : List α, listMapM h (l.map g) = some (l.map k) := by
  intro l
  induction l with
  | nil => rfl
  | cons a rest ih => simp [listMapM, H, ih]

theorem severity_value_roundtrip (s : FindingSeverity) :
    FindingSeverity.ofValue s.value = some s := by
  cases s <;> rfl

theorem agent_value_roundtrip (a : AgentName) :
    AgentName.ofValue a.value = some a := by
  cases a <;> rfl

theorem status_value_roundtrip (s : AgentStatus) :
    AgentStatus.ofValue s.value = some s := by
  cases s <;> rfl

theorem voice_value_roundtrip (v : VoiceEventType) :
    VoiceEventType.ofValue v.value = some v := by
  cases v <;> rfl

theorem findingOfRow_roundtrip (sid : String) (f : Finding) :
    findingOfRow (findingRowOf sid f)
      = some { f with id := sid ++ "_" ++ f.id } := by
  simp [findingOfRow, findingRowOf, severity_value_roundtrip, agent_value_roundtrip]

theorem progressOfRow_roundtrip (sid : String) (p : AgentProgress) :
    progressOfRow (progressRowOf sid p) = some p := by
  simp [progressOfRow, progressRowOf, agent_value_roundtrip, status_value_roundtrip]

theorem thoughtOfRow_roundtrip (sid : String) (t : AgentThought) :
    thoughtOfRow (thoughtRowOf sid t) = some t := by
  simp [thoughtOfRow, thoughtRowOf, agent_value_roundtrip]

theorem voiceOfRow_roundtrip (sid : String) (v : VoiceEvent) :
    voiceOfRow (voiceRowOf sid v) = some { v with scan_id := sid } := by
  simp [voiceOfRow, voiceRowOf, voice_value_roundtrip]

theorem statusOfRecord_roundtrip (s : ScanStatus) :
    statusOfRecord (recordOfStatus s) = some (persistedView s) := by
  simp only [statusOfRecord, recordOfStatus,
    listMapM_map_of_inverse _ _ _ (findingOfRow_roundtrip s.scan_id),
    listMapM_map_of_inverse _ _ _ (progressOfRow_roundtrip s.scan_id),
    listMapM_map_of_inverse _ _ _ (thoughtOfRow_roundtrip s.scan_id),
    listMapM_map_of_inverse _ _ _ (voiceOfRow_roundtrip s.scan_id)]
  simp [persistedView, logRowOf, Function.comp_def]

theorem dbSave_key_mem (db : ScanDatabase) (s : ScanStatus) :
    ((dbSave db s).find? (fun p => p.1 = s.scan_id)).isSome := by
  unfold dbSave
  split
  · rename_i hfound
    obtain ⟨q, hq⟩ := Option.isSome_iff_exists.mp hfound
    have hkey : q.1 = s.scan_id := by
      have := List.find?_some hq
      simpa using this
    rw [List.find?_isSome]
    refine ⟨(q.1, recordOfStatus s), ?_, by simpa using hkey⟩
    rw [List.mem_map]
    exact ⟨q, List.mem_of_find?_eq_some hq, by simp [hkey]⟩
  · rw [List.find?_isSome]
    exact ⟨(s.scan_id, recordOfStatus s), by simp, by simp⟩

theorem dbSave_of_found (db : ScanDatabase) (s : ScanStatus)
    (h : (db.find? (fun p => p.1 = s.scan_id)).isSome) :
    dbSave db s
      = db.map (fun p => if p.1 = s.scan_id then (p.1, recordOfStatus s) else p) := by
  unfold dbSave
  rw [if_pos h]

theorem dbSave_of_not_found (db : ScanDatabase) (s : ScanStatus)
    (h : ¬ (db.find? (fun p => p.1 = s.scan_id)).isSome = true) :
    dbSave db s = db ++ [(s.scan_id, recordOfStatus s)] := by
  unfold dbSave
  rw [if_neg h]

theorem dbSave_dbSave (db : ScanDatabase) (s : ScanStatus) :
    dbSave (dbSave db s) s = dbSave db s := by
  rw [dbSave_of_found (dbSave db s) s (dbSave_key_mem db s)]
  by_cases hdb : (db.find? (fun p => p.1 = s.scan_id)).isSome = true
  · rw [dbSave_of_found db s hdb, List.map_map]
    apply List.map_congr_left
    intro p _
    by_cases hp : p.1 = s.scan_id <;> simp [hp]
  · rw [dbSave_of_not_found db s hdb]
    have hnone : db.find? (fun p => decide (p.1 = s.scan_id)) = none := by
      cases hcase : db.find? (fun p => decide (p.1 = s.scan_id)) with
      | none => rfl
      | some q => rw [hcase] at hdb; simp at hdb
    rw [List.map_append]
    congr 1
    · conv_rhs => rw [← List.map_id db]
      apply List.map_congr_left
      intro p hp
      have hne : ¬ (p.1 = s.scan_id) := by
        have := List.find?_eq_none.mp hnone p hp
        simpa using this
      simp [hne]
    · simp

theorem dbLoad_dbSave (db : ScanDatabase) (s : ScanStatus) :
    dbLoad (dbSave db s) s.scan_id = some (persistedView s) := by
  unfold dbLoad
  by_cases hdb : (db.find? (fun p => p.1 = s.scan_id)).isSome = true
  · rw [dbSave_of_found db s hdb]
    obtain ⟨q, hq⟩ := Option.isSome_iff_exists.mp hdb
    have hkey : q.1 = s.scan_id := by simpa using List.find?_some hq
    rw [List.find?_map]
    have hcomp : (fun (p : String × ScanRecord) => decide (p.1 = s.scan_id)) ∘
        (fun p => if p.1 = s.scan_id then (p.1, recordOfStatus s) else p)
        = fun p => decide (p.1 = s.scan_id) := by
      funext p
      by_cases hp : p.1 = s.scan_id <;> simp [hp]
    rw [hcomp, hq]
    simp [hkey, statusOfRecord_roundtrip]
  · rw [dbSave_of_not_found db s hdb]
    have hnone : db.find? (fun p => decide (p.1 = s.scan_id)) = none := by
      cases hcase : db.find? (fun p => decide (p.1 = s.scan_id)) with
      | none => rfl
      | some q => rw [hcase] at hdb; simp at hdb
    rw [List.find?_append, hnone]
    simp [statusOfRecord_roundtrip]

/-- C7 (amended): saving the same `ScanStatus` twice under the same scan
id leaves the database exactly as after one save (children are replaced
wholesale, never duplicated), and reloading yields a value whose
progress, thought and log content equals the last-saved snapshot; the
findings come back with equal content except that each finding's `id` is
rewritten to `{scan_id}_{original id}` (the row id is stored prefixed but
loaded verbatim). -/
theorem idempotent_persistence_roundtrip (db : ScanDatabase) (s : ScanStatus) :
    dbSave (dbSave db s) s = dbSave db s ∧
    dbLoad (dbSave (dbSave db s) s) s.scan_id = some (persistedView s) ∧
    (persistedView s).progress = s.progress ∧
    (persistedView s).thoughts = s.thoughts ∧
    (persistedView s).logs = s.logs ∧
    (persistedView s).findings
      = s.findings.map (fun f => { f with id := s.scan_id ++ "_" ++ f.id }) := by
  refine ⟨dbSave_dbSave db s, ?_, rfl, rfl, rfl, rfl⟩
  rw [dbSave_dbSave db s]
  exact dbLoad_dbSave db s

/-- C7 counterexample: after saving twice and reloading, progress,
thoughts and logs round-trip, but the finding that was saved with id
`f1` comes back with id `scan1_f1` — so the reloaded value is not equal
in all finding content to the last-saved snapshot. -/
theorem persistence_id_mangling_counterexample :
    ((dbLoad (dbSave (dbSave [] statusC7) statusC7) "scan1").map
        (fun st => st.findings.map (fun f => f.id))) = some ["scan1_f1"] ∧
    statusC7.findings.map (fun f => f.id) = ["f1"] ∧
    ((dbLoad (dbSave (dbSave [] statusC7) statusC7) "scan1").map
        (fun st => st.findings)) ≠ some statusC7.findings ∧
    ((dbLoad (dbSave (dbSave [] statusC7) statusC7) "scan1").map
        (fun st => (st.progress, st.thoughts, st.logs)))
      = some (statusC7.progress, statusC7.thoughts, statusC7.logs) := by
  decide


end AegisScan

namespace AegisScan

theorem find?_filter_of_key (l : ScansDict) (k : String)
    (P : String × ScanStatus → Bool)
    (h : ∀ q ∈ l, q.1 = k → P q = true) :
    (l.filter P).find? (fun q => q.1 = k) = l.find? (fun q => q.1 = k) := by
  induction l with
  | nil => rfl
  | cons x rest ih =>
    have hrest : ∀ q ∈ rest, q.1 = k → P q = true :=
      fun q hq => h q (List.mem_cons_of_mem x hq)
    by_cases hx : x.1 = k
    · have hPx : P x = true := h x (List.mem_cons_self x rest) hx
      rw [List.filter_cons_of_pos hPx]
      rw [List.find?_cons_of_pos _ (by simp [hx]), List.find?_cons_of_pos _ (by simp [hx])]
    · cases hPx : P x with
      | true =>
        rw [List.filter_cons_of_pos hPx]
        rw [List.find?_cons_of_neg _ (by simp [hx]), List.find?_cons_of_neg _ (by simp [hx])]
        exact ih hrest
      | false =>
        rw [List.filter_cons_of_neg (by simp [hPx])]
        rw [List.find?_cons_of_neg _ (by simp [hx])]
        exact ih hrest

theorem dictLookup_pyDictUpdate_right (a b : ScansDict) (k : String) (v : ScanStatus)
    (h : dictLookup b k = some v) :
    dictLookup (pyDictUpdate a b) k = some v := by
  obtain ⟨qb, hqb, hqbv⟩ : ∃ qb, b.find? (fun q => q.1 = k) = some qb ∧ qb.2 = v := by
    unfold dictLookup at h
    cases hcase : b.find? (fun q => q.1 = k) with
    | none => rw [hcase] at h; simp at h
    | some qb => rw [hcase] at h; simp at h; exact ⟨qb, rfl, h⟩
  have hqbk : qb.1 = k := by simpa using List.find?_some hqb
  unfold dictLookup pyDictUpdate
  rw [List.find?_append]
  cases hfa : a.find? (fun p => p.1 = k) with
  | some p0 =>
    have hp0k : p0.1 = k := by simpa using List.find?_some hfa
    have hmap : (a.map (fun p =>
        match b.find? (fun q => q.1 = p.1) with
        | some q => (p.1, q.2)
        | none => p)).find? (fun q => q.1 = k)
        = some (p0.1, qb.2) := by
      rw [List.find?_map]
      have hcomp : ((fun (q : String × ScanStatus) => decide (q.1 = k)) ∘ (fun p =>
          match b.find? (fun q => q.1 = p.1) with
          | some q => (p.1, q.2)
          | none => p)) = fun p => decide (p.1 = k) := by
        funext p
        cases hb : b.find? (fun q => q.1 = p.1) <;> simp [hb]
      rw [hcomp, hfa]
      simp only [Option.map_some']
      rw [hp0k, hqb]
    rw [hmap]
    simp [hqbv]
  | none =>
    have hmapnone : (a.map (fun p =>
        match b.find? (fun q => q.1 = p.1) with
        | some q => (p.1, q.2)
        | none => p)).find? (fun q => q.1 = k) = none := by
      rw [List.find?_map]
      have hcomp : ((fun (q : String × ScanStatus) => decide (q.1 = k)) ∘ (fun p =>
          match b.find? (fun q => q.1 = p.1) with
          | some q => (p.1, q.2)
          | none => p)) = fun p => decide (p.1 = k) := by
        funext p
        cases hb : b.find? (fun q => q.1 = p.1) <;> simp [hb]
      rw [hcomp, hfa]
      rfl
    rw [hmapnone]
    have hfilter : (b.filter (fun q => ¬ a.any (fun p => p.1 = q.1))).find?
        (fun q => q.1 = k) = some qb := by
      rw [find?_filter_of_key _ k _ ?_, hqb]
      intro q _ hqk
      have hfq : a.find? (fun p => p.1 = q.1) = none := by rw [hqk]; exact hfa
      have hnone := List.find?_eq_none.mp hfq
      simp only [decide_eq_true_eq]
      intro hcon
      obtain ⟨p, hp, hpq⟩ := List.any_eq_true.mp hcon
      exact absurd hpq (hnone p hp)
    rw [hfilter]
    simp [hqbv]

theorem dictLookup_dictInsert (d : ScansDict) (k : String) (v : ScanStatus) :
    dictLookup (dictInsert d k v) k = some v := by
  unfold dictInsert
  split
  · rename_i hany
    unfold dictLookup
    rw [List.find?_map]
    have hcomp : ((fun (q : String × ScanStatus) => decide (q.1 = k)) ∘
        (fun p => if p.1 = k then (k, v) else p)) = fun p => decide (p.1 = k) := by
      funext p
      by_cases hp : p.1 = k <;> simp [hp]
    rw [hcomp]
    obtain ⟨p0, hp0, hp0k⟩ := List.any_eq_true.mp hany
    have hsome : (d.find? (fun p => decide (p.1 = k))).isSome := by
      rw [List.find?_isSome]
      exact ⟨p0, hp0, hp0k⟩
    obtain ⟨q0, hq0⟩ := Option.isSome_iff_exists.mp hsome
    have hq0k : q0.1 = k := by simpa using List.find?_some hq0
    rw [hq0]
    simp [hq0k]
  · rename_i hany
    unfold dictLookup
    rw [List.find?_append]
    have hnone : d.find? (fun p => decide (p.1 = k)) = none := by
      rw [List.find?_eq_none]
      intro p hp
      simp only [decide_eq_true_eq]
      intro hpk
      exact hany (List.any_eq_true.mpr ⟨p, hp, by simpa using hpk⟩)
    rw [hnone]
    simp

/-- C10: `get_status` returns the live in-memory `ScanStatus` whenever
the id is in this instance's `_scans` dictionary (where `start_scan` put
it and nothing ever removes it), and falls back to the persistent store
only when it is not; `list_scans` merges the persisted dictionary with
the in-memory one such that for an id present in both, the in-memory
snapshot wins. -/
theorem in_memory_precedence (scans : ScansDict) (db : ScanDatabase) (sid : String) :
    (∀ s, dictLookup scans sid = some s → get_status scans db sid = some s) ∧
    (dictLookup scans sid = none → get_status scans db sid = dbLoad db sid) ∧
    (∀ st, dictLookup (dictInsert scans sid st) sid = some st) ∧
    (∀ s, dictLookup scans sid = some s →
        dictLookup (list_scans scans db) sid = some s) := by
  refine ⟨?_, ?_, ?_, ?_⟩
  · intro s hs
    unfold get_status
    rw [hs]
  · intro hs
    unfold get_status
    rw [hs]
  · intro st
    exact dictLookup_dictInsert scans sid st
  · intro s hs
    unfold list_scans
    exact dictLookup_pyDictUpdate_right _ scans sid s hs

/-- Witness for C10: the id `a` is both in memory and persisted; the
in-memory snapshot is returned by both reads. -/
theorem in_memory_precedence_witness :
    dictLookup scansC10 "a" = some statusMem ∧
    (dbLoad dbC10 "a").isSome ∧
    get_status scansC10 dbC10 "a" = some statusMem ∧
    dictLookup (list_scans scansC10 dbC10) "a" = some statusMem :=
  ⟨by decide, by decide,
   (in_memory_precedence scansC10 dbC10 "a").1 statusMem (by decide),
   (in_memory_precedence scansC10 dbC10 "a").2.2.2 statusMem (by decide)⟩


end AegisScan

namespace AegisScan

theorem resolveCtxTarget_llm_client (ws turl : Option String) (a : AgentName)
    (c : AgentContext) :
    (resolveCtxTarget ws turl a c).llm_client = c.llm_client := by
  unfold resolveCtxTarget
  cases ws <;> cases turl <;> dsimp <;> (repeat' split) <;> rfl

theorem resolveCtxTarget_scan_id (ws turl : Option String) (a : AgentName)
    (c : AgentContext) :
    (resolveCtxTarget ws turl a c).scan_id = c.scan_id := by
  unfold resolveCtxTarget
  cases ws <;> cases turl <;> dsimp <;> (repeat' split) <;> rfl

theorem adaptiveAgentRun_no_llm (jsonDec : String → Option Analysis)
    (ctx : AgentContext) (h : ctx.llm_client = none) :
    adaptiveAgentRun jsonDec ctx
      = (.gen [some (.thought (think .adaptive "LLM Adaptive Agent"
            adaptiveCapabilities ctx
            "Analyze scan results and provide adaptive security recommendations"
            (buildContextSummary ctx))),
          some (.finding (createBasicFinding ctx))], none) := by
  unfold adaptiveAgentRun
  rw [h]

theorem threatAgentRun_shape (ctx : AgentContext)
    (h : ctx.previous_findings ≠ []) :
    ∃ th fi, threatAgentRun ctx
        = (.gen [some (.thought th), some (.finding fi)], none) ∧
      fi.title = "Threat Prioritization Analysis" ∧
      fi.source_agent = .threat := by
  unfold threatAgentRun
  rw [if_neg h]
  exact ⟨_, _, rfl, rfl, rfl⟩

theorem reportAgentRun_shape (reportsDir : String) (pdfOk : Bool)
    (ctx : AgentContext) :
    ∃ th fi, reportAgentRun reportsDir none pdfOk ctx
        = (.gen [some (.thought th), some (.finding fi)], none) ∧
      fi.title = "Security Scan Report Generated" ∧
      fi.source_agent = .report := by
  unfold reportAgentRun
  exact ⟨_, _, rfl, rfl, rfl⟩

/-- C6: in a run of the three meta agents (adaptive reasoning, threat
prioritization, reporting) with no LLM client available, every agent
ends `COMPLETED` — never `FAILED` — and the scan's findings are exactly
the three deterministic fallback findings: the basic scan summary, the
rule-based threat prioritization summary, and the template-based report
finding.  (The agents' internal try/except also swallow every LLM error
when a client is present, as encoded in `think`, `analyzeFindings`,
`generateThreatInsights` and `generateExecutiveSummary`.) -/
theorem meta_agents_degrade_not_fail (env : OrchEnv) (ws turl : Option String)
    (st0 : OrchState) (jsonDec : String → Option Analysis)
    (reportsDir : String) (pdfOk : Bool) (e1 e2 e3 : AgentProgress)
    (hprog : st0.status.progress = [e1, e2, e3])
    (ha1 : e1.agent = .adaptive) (ha2 : e2.agent = .threat) (ha3 : e3.agent = .report)
    (hr1 : env.registry .adaptive = some (adaptiveBehavior jsonDec))
    (hr2 : env.registry .threat = some threatBehavior)
    (hr3 : env.registry .report = some (reportBehavior reportsDir none pdfOk))
    (hllm : st0.ctx.llm_client = none)
    (hfind0 : st0.status.findings = []) :
    (∀ p ∈ (runAgents env ws turl st0).status.progress, p.status = .completed) ∧
    (runAgents env ws turl st0).status.findings.map (fun f => (f.title, f.source_agent))
      = [("Basic Scan Summary", .adaptive),
         ("Threat Prioritization Analysis", .threat),
         ("Security Scan Report Generated", .report)] := by
  -- step 1: the adaptive agent
  have he1 : st0.status.progress[0]? = some e1 := by rw [hprog]; rfl
  have hb1 : env.registry e1.agent = some (adaptiveBehavior jsonDec) := by
    rw [ha1]; exact hr1
  set ctx1 : AgentContext :=
    { resolveCtxTarget ws turl e1.agent st0.ctx with
      previous_findings := st0.status.findings } with hctx1
  have hllm1 : ctx1.llm_client = none := by
    rw [hctx1]
    show (resolveCtxTarget ws turl e1.agent st0.ctx).llm_client = none
    rw [resolveCtxTarget_llm_client]
    exact hllm
  have hrun1 : (adaptiveBehavior jsonDec).run ctx1
      = (.gen [some (.thought (think .adaptive "LLM Adaptive Agent"
            adaptiveCapabilities ctx1
            "Analyze scan results and provide adaptive security recommendations"
            (buildContextSummary ctx1))),
          some (.finding (createBasicFinding ctx1))], none) := by
    show adaptiveAgentRun jsonDec ctx1 = _
    exact adaptiveAgentRun_no_llm jsonDec ctx1 hllm1
  obtain ⟨t1, f1, p1, th1, l1, sv1, c1, cx1, si1, pb1, pm1⟩ :=
    stepAgent_registered_spec env ws turl st0 (stepAgent env ws turl st0 0) 0 e1
      (adaptiveBehavior jsonDec) _ none ctx1 he1 hb1 hctx1 hrun1 rfl
  set st1 := stepAgent env ws turl st0 0 with hst1
  have hfind1 : st1.status.findings = [createBasicFinding ctx1] := by
    rw [f1, hfind0]
    rfl
  have hprog1 : st1.status.progress
      = [terminalProgress e1.agent (adaptiveBehavior jsonDec).displayName
           st0.clock (st0.clock + 1) none, e2, e3] := by
    rw [p1, hprog]
    rfl
  -- step 2: the threat agent
  have he2 : st1.status.progress[1]? = some e2 := by rw [hprog1]; rfl
  have hb2 : env.registry e2.agent = some threatBehavior := by
    rw [ha2]; exact hr2
  set ctx2 : AgentContext :=
    { resolveCtxTarget ws turl e2.agent st1.ctx with
      previous_findings := st1.status.findings } with hctx2
  have hprev2 : ctx2.previous_findings ≠ [] := by
    show st1.status.findings ≠ []
    rw [hfind1]
    simp
  obtain ⟨th2v, fi2, hrun2eq, hti2, hsrc2⟩ := threatAgentRun_shape ctx2 hprev2
  have hrun2 : threatBehavior.run ctx2
      = (.gen [some (.thought th2v), some (.finding fi2)], none) := by
    show threatAgentRun ctx2 = _
    exact hrun2eq
  obtain ⟨t2, f2, p2, th2, l2, sv2, c2, cx2, si2, pb2, pm2⟩ :=
    stepAgent_registered_spec env ws turl st1 (stepAgent env ws turl st1 1) 1 e2
      threatBehavior _ none ctx2 he2 hb2 hctx2 hrun2 rfl
  set st2 := stepAgent env ws turl st1 1 with hst2
  have hfind2 : st2.status.findings = [createBasicFinding ctx1, fi2] := by
    rw [f2, hfind1]
    rfl
  have hprog2 : st2.status.progress
      = [terminalProgress e1.agent (adaptiveBehavior jsonDec).displayName
           st0.clock (st0.clock + 1) none,
         terminalProgress e2.agent threatBehavior.displayName
           st1.clock (st1.clock + 1) none, e3] := by
    rw [p2, hprog1]
    rfl
  -- step 3: the report agent
  have he3 : st2.status.progress[2]? = some e3 := by rw [hprog2]; rfl
  have hb3 : env.registry e3.agent = some (reportBehavior reportsDir none pdfOk) := by
    rw [ha3]; exact hr3
  set ctx3 : AgentContext :=
    { resolveCtxTarget ws turl e3.agent st2.ctx with
      previous_findings := st2.status.findings } with hctx3
  obtain ⟨th3v, fi3, hrun3eq, hti3, hsrc3⟩ := reportAgentRun_shape reportsDir pdfOk ctx3
  have hrun3 : (reportBehavior reportsDir none pdfOk).run ctx3
      = (.gen [some (.thought th3v), some (.finding fi3)], none) := by
    show reportAgentRun reportsDir none pdfOk ctx3 = _
    exact hrun3eq
  obtain ⟨t3, f3, p3, th3, l3, sv3, c3, cx3, si3, pb3, pm3⟩ :=
    stepAgent_registered_spec env ws turl st2 (stepAgent env ws turl st2 2) 2 e3
      (reportBehavior reportsDir none pdfOk) _ none ctx3 he3 hb3 hctx3 hrun3 rfl
  set st3 := stepAgent env ws turl st2 2 with hst3
  have hfind3 : st3.status.findings = [createBasicFinding ctx1, fi2, fi3] := by
    rw [f3, hfind2]
    rfl
  have hprog3 : st3.status.progress
      = [terminalProgress e1.agent (adaptiveBehavior jsonDec).displayName
           st0.clock (st0.clock + 1) none,
         terminalProgress e2.agent threatBehavior.displayName
           st1.clock (st1.clock + 1) none,
         terminalProgress e3.agent (reportBehavior reportsDir none pdfOk).displayName
           st2.clock (st2.clock + 1) none] := by
    rw [p3, hprog2]
    rfl
  -- the loop runs exactly these three steps
  have hrn : runAgents env ws turl st0 = st3 := by
    show runAgentsAux env ws turl st0.status.progress.length 0 st0 = st3
    rw [show st0.status.progress.length = 3 from by rw [hprog]; rfl]
    rfl
  constructor
  · intro p hp
    rw [hrn, hprog3] at hp
    simp only [List.mem_cons, List.not_mem_nil, or_false] at hp
    rcases hp with hp | hp | hp <;> (rw [hp]; rfl)
  · rw [hrn, hfind3]
    simp [createBasicFinding, hti2, hsrc2, hti3, hsrc3]

/-- Witness for C6: a concrete three-meta-agent run without an LLM. -/
theorem meta_agents_degrade_not_fail_witness :
    stC6.ctx.llm_client = none ∧
    ((∀ p ∈ (runAgents envC6 none none stC6).status.progress,
        p.status = .completed) ∧
     (runAgents envC6 none none stC6).status.findings.map
         (fun f => (f.title, f.source_agent))
       = [("Basic Scan Summary", .adaptive),
          ("Threat Prioritization Analysis", .threat),
          ("Security Scan Report Generated", .report)]) :=
  ⟨rfl,
   meta_agents_degrade_not_fail envC6 none none stC6 jsonDecC6 "reports" true
     { agent := .adaptive } { agent := .threat } { agent := .report }
     rfl rfl rfl rfl rfl rfl rfl rfl rfl⟩


end AegisScan
